import Mathlib

/-!
Verification of the boids simulation engine (`boids/__init__.py`).

The engine is embedded shallowly over exact real arithmetic: `Vec2` models
`pygame.math.Vector2`, `Boid` the `Boid` dataclass, `populate_grid` the
spatial grid (cells hold list indices, modelling the Python references into
the authoritative list), `get_change` the per-agent compute step and
`update_boids` the two-phase tick.  The mid-phase mutation of `boid.alive`
performed by `get_change` on capture is modelled by threading the agent list
through the compute phase; the two `random.uniform` draws of the predator
wander branch are modelled by an oracle stream `rng : ℕ → ℝ` consumed in
draw order.
-/
open Classical

noncomputable section

namespace BoidsSim

/-- Two-dimensional vector over the reals, modelling `pygame.math.Vector2`. -/
structure Vec2 where
  x : ℝ
  y : ℝ

namespace Vec2

def add (a b : Vec2) : Vec2 := ⟨a.x + b.x, a.y + b.y⟩

def sub (a b : Vec2) : Vec2 := ⟨a.x - b.x, a.y - b.y⟩

instance : Add Vec2 := ⟨add⟩

instance : Sub Vec2 := ⟨sub⟩

/-- Componentwise scaling by a scalar on the right, `v * k` in pygame. -/
def mulScalar (v : Vec2) (k : ℝ) : Vec2 := ⟨v.x * k, v.y * k⟩

/-- Componentwise division by a scalar, `v / k` in pygame. -/
def divScalar (v : Vec2) (k : ℝ) : Vec2 := ⟨v.x / k, v.y / k⟩

def zero : Vec2 := ⟨0, 0⟩

/-- Squared Euclidean norm. -/
def lengthSq (v : Vec2) : ℝ := v.x ^ 2 + v.y ^ 2

/-- Euclidean norm, `Vector2.length()`. -/
def length (v : Vec2) : ℝ := Real.sqrt v.lengthSq

/-- Squared distance, `Vector2.distance_squared_to`. -/
def distSq (a b : Vec2) : ℝ := (a - b).lengthSq

/-- Unit vector in the direction of `v`, `Vector2.normalize()` (guarded from
the zero vector at every call site, as in the source). -/
def normalize (v : Vec2) : Vec2 := divScalar v v.length

/-- Rescale `v` to length `L`, `Vector2.scale_to_length(L)` (call sites
guarantee `v` is nonzero). -/
def scaleToLength (L : ℝ) (v : Vec2) : Vec2 := mulScalar v (L / v.length)

end Vec2

/-- Configuration scalars of `update_boids`, grouped.  Field names follow the
source parameter names. -/
structure Params where
  height : ℤ
  width : ℤ
  margin : ℤ
  min_speed : ℝ
  max_speed : ℝ
  visible_range : ℝ
  protected_range : ℝ
  avoid_factor : ℝ
  matching_factor : ℝ
  centering_factor : ℝ
  turn_factor : ℝ

/-- The `Boid` dataclass. -/
structure Boid where
  idx : ℕ
  position : Vec2
  velocity : Vec2
  current_speed : ℝ
  colour : ℤ × ℤ × ℤ
  predator : Bool
  alive : Bool

/-- Cell coordinate of a position: `int(x // cell_s), int(y // cell_s)`
(floor division). -/
def cellOf (p : Vec2) (cell_s : ℝ) : ℤ × ℤ := (⌊p.x / cell_s⌋, ⌊p.y / cell_s⌋)

/-- The grid built by `populate_grid`: each cell maps to the list positions
(in list order, matching `defaultdict` append order) of the boids whose
position falls in that cell.  Indices model the Python references into the
authoritative list. -/
def populate_grid (boids : List Boid) (cell_s : ℝ) : ℤ × ℤ → List ℕ :=
  fun cell =>
    (List.range boids.length).filter fun i =>
      (boids[i]?).any fun b => decide (cellOf b.position cell_s = cell)

/-- The nine cell offsets of the 3×3 scan, in the loop order of the source
(`cell_x_offset` outer, `cell_y_offset` inner, each `range(-1, 2)`). -/
def scanOffsets : List (ℤ × ℤ) :=
  [(-1, -1), (-1, 0), (-1, 1), (0, -1), (0, 0), (0, 1), (1, -1), (1, 0), (1, 1)]

/-- All list positions visited by the 3×3 cell scan around cell `c`. -/
def scanIndices (grid : ℤ × ℤ → List ℕ) (c : ℤ × ℤ) : List ℕ :=
  scanOffsets.flatMap fun off => grid (c.1 + off.1, c.2 + off.2)

/-- Accumulators of the neighbor scan in `get_change`. -/
structure ScanAcc where
  position_avg : Vec2
  velocity_avg : Vec2
  close_diff : Vec2
  neighboring_prey_count : ℕ
  nearby_predators : List Boid

def initAcc : ScanAcc := ⟨Vec2.zero, Vec2.zero, Vec2.zero, 0, []⟩

/-- One iteration of the neighbor loop of `get_change` for the boid at list
position `i`.  `none` models the early return of the capture branch, which
also sets `boid.alive = False` on the scanning prey. -/
def scanStep (self : Boid) (selfPos : ℕ) (vr pr : ℝ) (boids : List Boid)
    (acc : ScanAcc) (i : ℕ) : Option ScanAcc :=
  if i = selfPos then some acc
  else
    match boids[i]? with
    | none => some acc
    | some other =>
      if other.alive = false then some acc
      else
        if other.predator = true then
          if self.predator = false ∧ Vec2.distSq self.position other.position < 2 ^ 2 then
            none
          else some { acc with nearby_predators := acc.nearby_predators ++ [other] }
        else
          if self.predator = true then
            if Vec2.distSq self.position other.position < vr ^ 2 then
              some { acc with
                       position_avg := acc.position_avg + other.position,
                       neighboring_prey_count := acc.neighboring_prey_count + 1 }
            else some acc
          else
            if Vec2.distSq self.position other.position < vr ^ 2 then
              if Vec2.distSq self.position other.position < pr ^ 2 then
                some { acc with
                         close_diff := acc.close_diff + (self.position - other.position) }
              else
                some { acc with
                         position_avg := acc.position_avg + other.position,
                         velocity_avg := acc.velocity_avg + other.velocity,
                         neighboring_prey_count := acc.neighboring_prey_count + 1 }
            else some acc

/-- The full neighbor scan: fold `scanStep` over the scanned list positions,
stopping at the capture early-return. -/
def scanFold (self : Boid) (selfPos : ℕ) (vr pr : ℝ) (boids : List Boid) :
    List ℕ → ScanAcc → Option ScanAcc
  | [], acc => some acc
  | i :: rest, acc =>
    match scanStep self selfPos vr pr boids acc i with
    | none => none
    | some acc' => scanFold self selfPos vr pr boids rest acc'

/-- Squared distance to a predator, clamped below by `safe_distance²` as in
`calculate_flee_velocity`. -/
def clampedDistSq (boid p : Boid) (safe_distance : ℝ) : ℝ :=
  let dist_sq := Vec2.distSq boid.position p.position
  if dist_sq < safe_distance ^ 2 then safe_distance ^ 2 else dist_sq

/-- Sum of per-predator repulsion vectors `diff / max(dist², safe²)`. -/
def totalRepulsion (boid : Boid) (predators : List Boid) (safe_distance : ℝ) : Vec2 :=
  predators.foldl
    (fun tot p =>
      tot + Vec2.divScalar (boid.position - p.position) (clampedDistSq boid p safe_distance))
    Vec2.zero

/-- The `calculate_flee_velocity` function. -/
def calculate_flee_velocity (boid : Boid) (predators : List Boid)
    (flee_speed safe_distance : ℝ) : Vec2 :=
  if predators = [] then Vec2.zero
  else
    let total := totalRepulsion boid predators safe_distance
    if total.length > 0 then Vec2.mulScalar total.normalize flee_speed
    else Vec2.zero

/-- Prey branch of `get_change`: flee overrides flocking; otherwise cohesion,
alignment and separation are added to the current velocity. -/
def preyRules (self : Boid) (P : Params) (acc : ScanAcc) : Vec2 :=
  if acc.nearby_predators ≠ [] then
    calculate_flee_velocity self acc.nearby_predators P.max_speed 1
  else if acc.neighboring_prey_count > 0 then
    let n : ℝ := (acc.neighboring_prey_count : ℝ)
    let position_avg := Vec2.divScalar acc.position_avg n
    let velocity_avg := Vec2.divScalar acc.velocity_avg n
    let cohesion := Vec2.mulScalar (position_avg - self.position) P.centering_factor
    let alignment := Vec2.mulScalar (velocity_avg - self.velocity) P.matching_factor
    let separation := Vec2.mulScalar acc.close_diff P.avoid_factor
    self.velocity + (cohesion + (alignment + separation))
  else self.velocity

/-- Predator branch of `get_change`: chase the average visible prey position
at half max speed, or wander by a random perturbation when no prey is seen. -/
def predatorRules (self : Boid) (P : Params) (acc : ScanAcc) (wander : Vec2) : Vec2 :=
  if acc.neighboring_prey_count > 0 then
    let position_avg := Vec2.divScalar acc.position_avg (acc.neighboring_prey_count : ℝ)
    let chase := position_avg - self.position
    if chase.length > 0 then
      self.velocity + Vec2.mulScalar chase.normalize (P.max_speed * 0.5)
    else self.velocity
  else self.velocity + wander

/-- Margin-based boundary containment of `get_change`: an `if/elif` pair per
axis, guarded by `turn_factor > 0`. -/
def applyTurn (P : Params) (pos v : Vec2) : Vec2 :=
  if P.turn_factor > 0 then
    let vy :=
      if pos.y < (P.margin : ℝ) then v.y + P.turn_factor
      else if pos.y > ((P.height - P.margin : ℤ) : ℝ) then v.y - P.turn_factor
      else v.y
    let vx :=
      if pos.x < (P.margin : ℝ) then v.x + P.turn_factor
      else if pos.x > ((P.width - P.margin : ℤ) : ℝ) then v.x - P.turn_factor
      else v.x
    ⟨vx, vy⟩
  else v

/-- Speed regulation of `get_change`: clamp a nonzero speed into
`[min_speed, max_speed]` and rescale, or nudge a zero velocity to
`(min_speed, 0)`.  Returns the final velocity and final speed. -/
def regulate (min_speed max_speed : ℝ) (v : Vec2) : Vec2 × ℝ :=
  let speed := v.length
  if speed > 0 then
    let final_speed := max min_speed (min speed max_speed)
    (Vec2.scaleToLength final_speed v, final_speed)
  else (⟨min_speed, 0⟩, min_speed)

/-- The tuple returned by `get_change`. -/
structure ChangeResult where
  idx : ℕ
  final_position : Vec2
  final_velocity : Vec2
  final_speed : ℝ
  alive : Bool

/-- The proposed velocity of `get_change` after neighbor rules and boundary
containment; `none` models the capture early-return. -/
def get_change_proposed (self : Boid) (selfPos : ℕ) (boids : List Boid)
    (grid : ℤ × ℤ → List ℕ) (cell_size : ℝ) (P : Params) (wander : Vec2) :
    Option Vec2 :=
  match scanFold self selfPos P.visible_range P.protected_range boids
      (scanIndices grid (cellOf self.position cell_size)) initAcc with
  | none => none
  | some acc =>
    let nv :=
      if self.predator = false then preyRules self P acc
      else predatorRules self P acc wander
    some (applyTurn P self.position nv)

/-- The `get_change` function: the capture branch returns the zero sentinel
tuple, otherwise the proposed velocity is speed-regulated and added to the
position. -/
def get_change (self : Boid) (selfPos : ℕ) (boids : List Boid)
    (grid : ℤ × ℤ → List ℕ) (cell_size : ℝ) (P : Params) (wander : Vec2) :
    ChangeResult :=
  match get_change_proposed self selfPos boids grid cell_size P wander with
  | none => ⟨self.idx, Vec2.zero, Vec2.zero, 0, false⟩
  | some nv =>
    let fv := regulate P.min_speed P.max_speed nv
    ⟨self.idx, self.position + fv.1, fv.1, fv.2, self.alive⟩

/-- Whether the predator wander branch runs (and hence two `random.uniform`
draws are consumed). -/
def wanderTaken (self : Boid) (selfPos : ℕ) (boids : List Boid)
    (grid : ℤ × ℤ → List ℕ) (cell_size : ℝ) (P : Params) : Bool :=
  self.predator &&
    match scanFold self selfPos P.visible_range P.protected_range boids
        (scanIndices grid (cellOf self.position cell_size)) initAcc with
    | none => false
    | some acc => acc.neighboring_prey_count == 0

/-- State threaded through the compute phase: the authoritative list (whose
`alive` flags `get_change` may flip), the accumulated result tuples, and the
number of random draws consumed so far. -/
structure PhaseState where
  bs : List Boid
  states : List ChangeResult
  k : ℕ

/-- One compute-phase step: run `get_change` for the boid at list position
`i` if it is currently alive. -/
def phaseStep (grid : ℤ × ℤ → List ℕ) (cell_size : ℝ) (P : Params)
    (rng : ℕ → ℝ) (st : PhaseState) (i : ℕ) : PhaseState :=
  match st.bs[i]? with
  | none => st
  | some b =>
    if b.alive = true then
      let wander : Vec2 := ⟨rng st.k, rng (st.k + 1)⟩
      let r := get_change b i st.bs grid cell_size P wander
      let bs' := if r.alive = false then st.bs.set i { b with alive := false } else st.bs
      let k' := if wanderTaken b i st.bs grid cell_size P then st.k + 2 else st.k
      ⟨bs', st.states ++ [r], k'⟩
    else st

/-- The compute phase: fold `phaseStep` over the processing order. -/
def computePhase (boids : List Boid) (order : List ℕ) (grid : ℤ × ℤ → List ℕ)
    (cell_size : ℝ) (P : Params) (rng : ℕ → ℝ) : PhaseState :=
  order.foldl (phaseStep grid cell_size P rng) ⟨boids, [], 0⟩

/-- Per-axis hard clamp of a committed position into
`[0, width-1] × [0, height-1]`. -/
def clampPos (P : Params) (p : Vec2) : Vec2 :=
  ⟨max 0 (min ((P.width - 1 : ℤ) : ℝ) p.x), max 0 (min ((P.height - 1 : ℤ) : ℝ) p.y)⟩

/-- Application of one result tuple to the addressed boid in the commit loop
of `update_boids`: blacken on death, then assign position (clamped), velocity
and speed. -/
def applyState (P : Params) (st : ChangeResult) (b : Boid) : Boid :=
  let b1 := if st.alive = false then { b with colour := ((0 : ℤ), (0 : ℤ), (0 : ℤ)) } else b
  { b1 with
      position := clampPos P st.final_position,
      velocity := st.final_velocity,
      current_speed := st.final_speed }

/-- One commit-loop iteration: `boids[idx] = ...` with the border clamp. -/
def commitOne (P : Params) (bs : List Boid) (st : ChangeResult) : List Boid :=
  match bs[st.idx]? with
  | none => bs
  | some b => bs.set st.idx (applyState P st b)

/-- The commit phase: apply every result tuple in order. -/
def commitPhase (P : Params) (bs : List Boid) (states : List ChangeResult) : List Boid :=
  states.foldl (commitOne P) bs

/-- One tick with an explicit compute-phase processing order (the source
iterates the list in order; the order parameter lets the order-independence
property be stated). -/
def update_boids_with_order (boids : List Boid) (order : List ℕ) (P : Params)
    (rng : ℕ → ℝ) : List Boid :=
  let cell_size := P.visible_range * 1.1
  let grid := populate_grid boids cell_size
  let st := computePhase boids order grid cell_size P rng
  commitPhase P st.bs st.states

/-- The `update_boids` function: one full tick in source order. -/
def update_boids (boids : List Boid) (P : Params) (rng : ℕ → ℝ) : List Boid :=
  update_boids_with_order boids (List.range boids.length) P rng

/-- Iterated ticks, with a fresh random oracle per tick. -/
def runTicks (boids : List Boid) (P : Params) (rngs : ℕ → ℕ → ℝ) : ℕ → List Boid
  | 0 => boids
  | k + 1 => update_boids (runTicks boids P rngs k) P (rngs k)

/-- List positions processed before the first occurrence of `j` in the
compute-phase order. -/
def prefixBefore (order : List ℕ) (j : ℕ) : List ℕ := order.takeWhile fun k => k != j

/-- The result tuple `get_change` produces for the boid at list position `j`
during a tick processed in the given order: the compute phase is replayed on
the positions processed before `j`, so that the mid-phase `alive` mutations
and random-draw count are accounted for. -/
def resultAt (boids : List Boid) (order : List ℕ) (P : Params) (rng : ℕ → ℝ)
    (j : ℕ) : ChangeResult :=
  let cell_size := P.visible_range * 1.1
  let grid := populate_grid boids cell_size
  let st := computePhase boids (prefixBefore order j) grid cell_size P rng
  match st.bs[j]? with
  | none => ⟨j, Vec2.zero, Vec2.zero, 0, true⟩
  | some b => get_change b j st.bs grid cell_size P ⟨rng st.k, rng (st.k + 1)⟩

/-- The proposed (pre-regulation) velocity for the boid at list position `j`,
replayed the same way; `none` models the capture early-return. -/
def proposalAt (boids : List Boid) (order : List ℕ) (P : Params) (rng : ℕ → ℝ)
    (j : ℕ) : Option Vec2 :=
  let cell_size := P.visible_range * 1.1
  let grid := populate_grid boids cell_size
  let st := computePhase boids (prefixBefore order j) grid cell_size P rng
  match st.bs[j]? with
  | none => none
  | some b => get_change_proposed b j st.bs grid cell_size P ⟨rng st.k, rng (st.k + 1)⟩

/-- Membership of a position in the simulation bounds `[0,w-1] × [0,h-1]`. -/
def inBounds (P : Params) (p : Vec2) : Prop :=
  0 ≤ p.x ∧ p.x ≤ ((P.width - 1 : ℤ) : ℝ) ∧ 0 ≤ p.y ∧ p.y ≤ ((P.height - 1 : ℤ) : ℝ)

/-- The condition on scanned position `i` that fires the capture
early-return of `get_change`. -/
def captureTrigger (self : Boid) (selfPos : ℕ) (boids : List Boid) (i : ℕ) : Prop :=
  i ≠ selfPos ∧ ∃ other, boids[i]? = some other ∧ other.alive = true ∧
    other.predator = true ∧ self.predator = false ∧
    Vec2.distSq self.position other.position < 2 ^ 2

/-! ### Compute-phase invariants

During the compute phase the only mutation `get_change` performs is flipping
a prey's own `alive` flag to `false` on capture; every other field of every
boid is read-only until the commit phase. -/
/-- Mid-phase lists agree with the pre-tick list except that some prey
`alive` flags may have been flipped from `true` to `false`. -/
def AliveRel (boids bs : List Boid) : Prop :=
  bs.length = boids.length ∧
  ∀ (j : ℕ) (b : Boid), boids[j]? = some b →
    ∃ a : Bool, bs[j]? = some { b with alive := a } ∧
      (a = true → b.alive = true) ∧ (b.predator = true → a = b.alive)

/-! ### Concrete scenarios

Concrete agent lists and configurations used to instantiate the claims and
to exhibit the divergences between the specification and the code. -/
/-- A deterministic random oracle: every draw returns `0`. -/
def rng0 : ℕ → ℝ := fun _ => 0

/-- Standard test configuration: 100×100 world, margin 10, speeds in
`[0.5, 2]`, visible range 20 (cell size 22), protected range 2, turn factor
disabled. -/
def P2 : Params := ⟨100, 100, 10, 0.5, 2, 20, 2, 0.05, 0.05, 0.0005, 0⟩

def prey0 : Boid := ⟨0, ⟨10, 10⟩, ⟨1, 0⟩, 0, (255, 255, 255), false, true⟩

def pred1 : Boid := ⟨1, ⟨10, 10⟩, ⟨0, 0⟩, 0, (255, 255, 255), true, true⟩

/-- Capture scenario: a prey and a predator coincident at `(10, 10)`. -/
def B2 : List Boid := [prey0, pred1]

/-- Lone fast prey: proposed velocity `(3, 4)` of length 5 exceeds
`max_speed`. -/
def prey3 : Boid := ⟨0, ⟨5, 5⟩, ⟨3, 4⟩, 0, (255, 255, 255), false, true⟩

def B3 : List Boid := [prey3]

/-- Lone resting prey: proposed velocity is the zero vector. -/
def prey4 : Boid := ⟨0, ⟨5, 5⟩, ⟨0, 0⟩, 0, (255, 255, 255), false, true⟩

def B4 : List Boid := [prey4]

/-- Dense-cluster-straddling-a-boundary pair for the neighbor-completeness
witness: positions 21 and 23 fall in different cells of size 22. -/
def bq6 : Boid := ⟨0, ⟨21, 0⟩, ⟨0, 0⟩, 0, (255, 255, 255), false, true⟩

def bo6 : Boid := ⟨1, ⟨23, 0⟩, ⟨0, 0⟩, 0, (255, 255, 255), false, true⟩

def B6 : List Boid := [bq6, bo6]

/-- A dead boid used for the dead-agent-freezing witness. -/
def deadb : Boid := ⟨0, ⟨3, 4⟩, ⟨1, 1⟩, 1, (9, 9, 9), false, false⟩

def B5 : List Boid := [deadb]

/-- Configuration with boundary containment enabled (`turn_factor = 0.2`). -/
def P9 : Params := ⟨100, 100, 10, 0.5, 2, 20, 2, 0.05, 0.05, 0.0005, 0.2⟩

/-- Flee-cancellation scenario: a prey flanked symmetrically by two
predators 3 units away on either side; the repulsion vectors cancel. -/
def preyF : Boid := ⟨0, ⟨5, 0⟩, ⟨0, 1⟩, 0, (255, 255, 255), false, true⟩

def pdA : Boid := ⟨1, ⟨2, 0⟩, ⟨0, 0⟩, 0, (255, 255, 255), true, true⟩

def pdB : Boid := ⟨2, ⟨8, 0⟩, ⟨0, 0⟩, 0, (255, 255, 255), true, true⟩

def B7 : List Boid := [preyF, pdA, pdB]

/-- Order-sensitivity scenario: a predator close enough to a prey to both
capture it and (if the prey is still alive when the predator is processed)
chase it.  Processing the prey first kills it mid-phase, and the predator
then wanders instead of chasing. -/
def predC : Boid := ⟨0, ⟨0, 0⟩, ⟨0, 0⟩, 0, (255, 255, 255), true, true⟩

def preyC : Boid := ⟨1, ⟨-1.5, 0⟩, ⟨0, 0⟩, 0, (255, 255, 255), false, true⟩

def B1 : List Boid := [predC, preyC]

def preyCd : Boid := ⟨1, ⟨-1.5, 0⟩, ⟨0, 0⟩, 0, (255, 255, 255), false, false⟩

def B1d : List Boid := [predC, preyCd]

namespace Vec2

@[simp] theorem add_mk (a b c d : ℝ) : (⟨a, b⟩ + ⟨c, d⟩ : Vec2) = ⟨a + c, b + d⟩ := rfl

@[simp] theorem sub_mk (a b c d : ℝ) : (⟨a, b⟩ - ⟨c, d⟩ : Vec2) = ⟨a - c, b - d⟩ := rfl

@[simp] theorem mulScalar_mk (a b k : ℝ) : mulScalar ⟨a, b⟩ k = ⟨a * k, b * k⟩ := rfl

@[simp] theorem divScalar_mk (a b k : ℝ) : divScalar ⟨a, b⟩ k = ⟨a / k, b / k⟩ := rfl

@[simp] theorem lengthSq_mk (a b : ℝ) : lengthSq ⟨a, b⟩ = a ^ 2 + b ^ 2 := rfl

@[simp] theorem x_mk (a b : ℝ) : (Vec2.mk a b).x = a := rfl

@[simp] theorem y_mk (a b : ℝ) : (Vec2.mk a b).y = b := rfl

@[simp] theorem add_x (a b : Vec2) : (a + b).x = a.x + b.x := rfl

@[simp] theorem add_y (a b : Vec2) : (a + b).y = a.y + b.y := rfl

@[simp] theorem sub_x (a b : Vec2) : (a - b).x = a.x - b.x := rfl

@[simp] theorem sub_y (a b : Vec2) : (a - b).y = a.y - b.y := rfl

theorem mk_eta (v : Vec2) : (⟨v.x, v.y⟩ : Vec2) = v := rfl

theorem eq_iff (a b : Vec2) : a = b ↔ a.x = b.x ∧ a.y = b.y := by
  constructor
  · intro h
    rw [h]
    exact ⟨rfl, rfl⟩
  · intro ⟨h1, h2⟩
    cases a
    cases b
    simp only [x_mk, y_mk] at h1 h2
    rw [h1, h2]

theorem length_mk_eq {a b q : ℝ} (hq : 0 ≤ q) (h : a ^ 2 + b ^ 2 = q ^ 2) :
    length ⟨a, b⟩ = q := by
  rw [length, lengthSq_mk, h, Real.sqrt_sq hq]

theorem length_nonneg (v : Vec2) : 0 ≤ v.length := Real.sqrt_nonneg _

theorem lengthSq_nonneg (v : Vec2) : 0 ≤ v.lengthSq := by
  have hx := sq_nonneg v.x
  have hy := sq_nonneg v.y
  simp only [lengthSq]; linarith

theorem length_sq_eq (v : Vec2) : v.length ^ 2 = v.lengthSq :=
  Real.sq_sqrt (lengthSq_nonneg v)

theorem length_pos_iff (v : Vec2) : 0 < v.length ↔ 0 < v.lengthSq := by
  rw [length]
  constructor
  · intro h
    by_contra hn
    push_neg at hn
    have : Real.sqrt v.lengthSq = 0 := by
      rcases lt_or_eq_of_le (lengthSq_nonneg v) with h1 | h1
      · exact absurd h1 (not_lt.mpr hn)
      · rw [← h1, Real.sqrt_zero]
    rw [this] at h; exact lt_irrefl 0 h
  · intro h
    exact Real.sqrt_pos.mpr h

theorem length_mulScalar (v : Vec2) (k : ℝ) :
    length (mulScalar v k) = |k| * v.length := by
  rw [length, length, lengthSq, lengthSq, mulScalar]
  have : (v.x * k) ^ 2 + (v.y * k) ^ 2 = k ^ 2 * (v.x ^ 2 + v.y ^ 2) := by ring
  rw [this, Real.sqrt_mul (sq_nonneg k), Real.sqrt_sq_eq_abs]

theorem mulScalar_one (v : Vec2) : mulScalar v 1 = v := by
  cases v; simp [mulScalar]

theorem length_scaleToLength {v : Vec2} (hv : 0 < v.length) {L : ℝ} (hL : 0 ≤ L) :
    length (scaleToLength L v) = L := by
  rw [scaleToLength, length_mulScalar, abs_of_nonneg (div_nonneg hL (le_of_lt hv)),
    div_mul_cancel₀ _ (ne_of_gt hv)]

theorem scaleToLength_self {v : Vec2} (hv : v.length ≠ 0) :
    scaleToLength v.length v = v := by
  rw [scaleToLength, div_self hv, mulScalar_one]

end Vec2

/-! ### Equation lemmas for the embedded operations -/
theorem get_change_idx (self : Boid) (selfPos : ℕ) (boids : List Boid)
    (grid : ℤ × ℤ → List ℕ) (cs : ℝ) (P : Params) (w : Vec2) :
    (get_change self selfPos boids grid cs P w).idx = self.idx := by
  unfold get_change
  cases get_change_proposed self selfPos boids grid cs P w <;> rfl

theorem get_change_of_proposed_none {self : Boid} {selfPos : ℕ} {boids : List Boid}
    {grid : ℤ × ℤ → List ℕ} {cs : ℝ} {P : Params} {w : Vec2}
    (h : get_change_proposed self selfPos boids grid cs P w = none) :
    get_change self selfPos boids grid cs P w = ⟨self.idx, Vec2.zero, Vec2.zero, 0, false⟩ := by
  unfold get_change
  rw [h]

theorem get_change_of_proposed_some {self : Boid} {selfPos : ℕ} {boids : List Boid}
    {grid : ℤ × ℤ → List ℕ} {cs : ℝ} {P : Params} {w : Vec2} {nv : Vec2}
    (h : get_change_proposed self selfPos boids grid cs P w = some nv) :
    get_change self selfPos boids grid cs P w =
      ⟨self.idx, self.position + (regulate P.min_speed P.max_speed nv).1,
        (regulate P.min_speed P.max_speed nv).1,
        (regulate P.min_speed P.max_speed nv).2, self.alive⟩ := by
  unfold get_change
  rw [h]

theorem get_change_proposed_none_iff (self : Boid) (selfPos : ℕ) (boids : List Boid)
    (grid : ℤ × ℤ → List ℕ) (cs : ℝ) (P : Params) (w : Vec2) :
    get_change_proposed self selfPos boids grid cs P w = none ↔
      scanFold self selfPos P.visible_range P.protected_range boids
        (scanIndices grid (cellOf self.position cs)) initAcc = none := by
  unfold get_change_proposed
  cases h : scanFold self selfPos P.visible_range P.protected_range boids
      (scanIndices grid (cellOf self.position cs)) initAcc <;> simp

theorem scanStep_none_of_trigger {self : Boid} {sp : ℕ} {bs : List Boid} {i : ℕ}
    (vr pr : ℝ) (h : captureTrigger self sp bs i) (acc : ScanAcc) :
    scanStep self sp vr pr bs acc i = none := by
  obtain ⟨h1, other, hl, ha, hp, hsp, hd⟩ := h
  unfold scanStep
  rw [if_neg h1]
  split
  · rename_i heq
    rw [heq] at hl
    cases hl
  · rename_i o heq
    rw [heq] at hl
    injection hl with hl'
    subst hl'
    have hna : ¬ o.alive = false := by simp [ha]
    rw [if_neg hna, if_pos hp, if_pos ⟨hsp, hd⟩]

theorem scanStep_none_imp {self : Boid} {sp : ℕ} {vr pr : ℝ} {bs : List Boid}
    {acc : ScanAcc} {i : ℕ} (h : scanStep self sp vr pr bs acc i = none) :
    captureTrigger self sp bs i := by
  unfold scanStep at h
  split at h
  · exact absurd h (by simp)
  · rename_i h1
    split at h
    · exact absurd h (by simp)
    · rename_i other heq
      split at h
      · exact absurd h (by simp)
      · rename_i h2
        split at h
        · rename_i h3
          split at h
          · rename_i h4
            exact ⟨h1, other, heq, by rwa [Bool.not_eq_false] at h2, h3, h4.1, h4.2⟩
          · exact absurd h (by simp)
        · split at h
          · split at h <;> exact absurd h (by simp)
          · split at h
            · split at h <;> exact absurd h (by simp)
            · exact absurd h (by simp)

theorem scanFold_eq_none_of_trigger {self : Boid} {sp : ℕ} {vr pr : ℝ}
    {bs : List Boid} {l : List ℕ}
    (h : ∃ i ∈ l, captureTrigger self sp bs i) :
    ∀ acc, scanFold self sp vr pr bs l acc = none := by
  induction l with
  | nil => rcases h with ⟨i, hi, -⟩; cases hi
  | cons j rest ih =>
    intro acc
    rw [scanFold]
    cases hs : scanStep self sp vr pr bs acc j with
    | none => rfl
    | some acc' =>
      rcases h with ⟨i, hi, htrig⟩
      rcases List.mem_cons.mp hi with hij | hmem
      · subst hij
        rw [scanStep_none_of_trigger vr pr htrig acc] at hs
        cases hs
      · exact ih ⟨i, hmem, htrig⟩ acc'

theorem scanFold_none_imp_prey {self : Boid} {sp : ℕ} {vr pr : ℝ}
    {bs : List Boid} {l : List ℕ} {acc : ScanAcc}
    (h : scanFold self sp vr pr bs l acc = none) : self.predator = false := by
  induction l generalizing acc with
  | nil => rw [scanFold] at h; cases h
  | cons j rest ih =>
    rw [scanFold] at h
    cases hs : scanStep self sp vr pr bs acc j with
    | none => exact (scanStep_none_imp hs).2.choose_spec.2.2.2.1
    | some acc' =>
      rw [hs] at h
      exact ih h

theorem set_alive_self (b : Boid) : ({ b with alive := b.alive } : Boid) = b := rfl

theorem aliveRel_refl (boids : List Boid) : AliveRel boids boids := by
  refine ⟨rfl, fun j b hj => ⟨b.alive, ?_, fun h => h, fun _ => rfl⟩⟩
  rw [set_alive_self]
  exact hj

theorem aliveRel_lookup {boids bs : List Boid} (H : AliveRel boids bs) {i : ℕ} {b0 : Boid}
    (h : bs[i]? = some b0) :
    ∃ b a, boids[i]? = some b ∧ b0 = { b with alive := a } ∧
      (a = true → b.alive = true) ∧ (b.predator = true → a = b.alive) := by
  obtain ⟨Hlen, Hrel⟩ := H
  have hi : i < boids.length := by
    have := (List.getElem?_eq_some.mp h).1
    omega
  obtain ⟨a, ha, h1, h2⟩ := Hrel i boids[i] (List.getElem?_eq_getElem hi)
  rw [h] at ha
  exact ⟨boids[i], a, List.getElem?_eq_getElem hi, Option.some.inj ha, h1, h2⟩

theorem get_change_proposed_none_of_alive_false {self : Boid} {sp : ℕ} {bs : List Boid}
    {grid : ℤ × ℤ → List ℕ} {cs : ℝ} {P : Params} {w : Vec2}
    (hb : self.alive = true)
    (h : (get_change self sp bs grid cs P w).alive = false) :
    get_change_proposed self sp bs grid cs P w = none := by
  cases hp : get_change_proposed self sp bs grid cs P w with
  | none => rfl
  | some nv =>
    rw [get_change_of_proposed_some hp] at h
    rw [hb] at h
    cases h

theorem phaseStep_length (grid : ℤ × ℤ → List ℕ) (cs : ℝ) (P : Params) (rng : ℕ → ℝ)
    (st : PhaseState) (i : ℕ) :
    (phaseStep grid cs P rng st i).bs.length = st.bs.length := by
  unfold phaseStep
  split
  · rfl
  · split
    · dsimp only
      split <;> simp [List.length_set]
    · rfl

theorem phaseStep_bs_get_ne {i j : ℕ} (h : i ≠ j) (grid : ℤ × ℤ → List ℕ) (cs : ℝ)
    (P : Params) (rng : ℕ → ℝ) (st : PhaseState) :
    (phaseStep grid cs P rng st i).bs[j]? = st.bs[j]? := by
  unfold phaseStep
  split
  · rfl
  · split
    · dsimp only
      split
      · rw [List.getElem?_set_ne h]
      · rfl
    · rfl

theorem phaseStep_aliveRel {boids : List Boid} {st : PhaseState}
    (H : AliveRel boids st.bs) (grid : ℤ × ℤ → List ℕ) (cs : ℝ) (P : Params)
    (rng : ℕ → ℝ) (i : ℕ) : AliveRel boids (phaseStep grid cs P rng st i).bs := by
  unfold phaseStep
  split
  · exact H
  · rename_i b0 heq
    split
    · rename_i halive
      dsimp only
      split
      · rename_i hr
        obtain ⟨b, a, hb, hb0, hat, hap⟩ := aliveRel_lookup H heq
        have hilen : i < st.bs.length := (List.getElem?_eq_some.mp heq).1
        unfold AliveRel
        constructor
        · simp [List.length_set, H.1]
        · intro j b' hj
          by_cases hij : j = i
          · have hbb' : b' = b := by
              rw [hij, hb] at hj
              exact (Option.some.inj hj).symm
            subst hbb'
            refine ⟨false, ?_, by simp, ?_⟩
            · rw [hij, List.getElem?_set_eq_of_lt _ hilen, hb0]
            · intro hpred
              have hpna : get_change_proposed b0 i st.bs grid cs P
                  ⟨rng st.k, rng (st.k + 1)⟩ = none :=
                get_change_proposed_none_of_alive_false halive hr
              have hb0p : b0.predator = false :=
                scanFold_none_imp_prey
                  ((get_change_proposed_none_iff b0 i st.bs grid cs P _).mp hpna)
              rw [hb0] at hb0p
              rw [hb0p] at hpred
              cases hpred
          · obtain ⟨a', ha', h1, h2⟩ := H.2 j b' hj
            refine ⟨a', ?_, h1, h2⟩
            rw [List.getElem?_set_ne (fun he => hij he.symm)]
            exact ha'
      · exact H
    · exact H

theorem foldl_phaseStep_aliveRel (boids : List Boid) (order : List ℕ)
    (grid : ℤ × ℤ → List ℕ) (cs : ℝ) (P : Params) (rng : ℕ → ℝ) :
    ∀ st : PhaseState, AliveRel boids st.bs →
      AliveRel boids (order.foldl (phaseStep grid cs P rng) st).bs := by
  induction order with
  | nil => intro st h; exact h
  | cons i rest ih =>
    intro st h
    exact ih _ (phaseStep_aliveRel h grid cs P rng i)

theorem foldl_phaseStep_length (grid : ℤ × ℤ → List ℕ) (cs : ℝ) (P : Params)
    (rng : ℕ → ℝ) (order : List ℕ) :
    ∀ st : PhaseState, (order.foldl (phaseStep grid cs P rng) st).bs.length = st.bs.length := by
  induction order with
  | nil => intro st; rfl
  | cons i rest ih =>
    intro st
    rw [List.foldl_cons, ih, phaseStep_length]

theorem foldl_phaseStep_get_of_not_mem (grid : ℤ × ℤ → List ℕ) (cs : ℝ) (P : Params)
    (rng : ℕ → ℝ) {order : List ℕ} {j : ℕ} (h : j ∉ order) :
    ∀ st : PhaseState, (order.foldl (phaseStep grid cs P rng) st).bs[j]? = st.bs[j]? := by
  induction order with
  | nil => intro st; rfl
  | cons i rest ih =>
    intro st
    have hij : i ≠ j := fun he => h (he ▸ List.mem_cons_self i rest)
    rw [List.foldl_cons, ih (fun hm => h (List.mem_cons_of_mem i hm)),
      phaseStep_bs_get_ne hij]

theorem foldl_phaseStep_states (boids : List Boid) (grid : ℤ × ℤ → List ℕ) (cs : ℝ)
    (P : Params) (rng : ℕ → ℝ) (order : List ℕ) :
    ∀ st : PhaseState, AliveRel boids st.bs →
      ∃ S, (order.foldl (phaseStep grid cs P rng) st).states = st.states ++ S ∧
        ∀ r ∈ S, ∃ i ∈ order, ∃ b, boids[i]? = some b ∧ r.idx = b.idx ∧
          b.alive = true := by
  induction order with
  | nil => intro st _; exact ⟨[], by simp, by simp⟩
  | cons i rest ih =>
    intro st h
    obtain ⟨S, hS, hSmem⟩ := ih (phaseStep grid cs P rng st i) (phaseStep_aliveRel h grid cs P rng i)
    have hstep : ∃ T, (phaseStep grid cs P rng st i).states = st.states ++ T ∧
        ∀ r ∈ T, ∃ b, boids[i]? = some b ∧ r.idx = b.idx ∧ b.alive = true := by
      unfold phaseStep
      split
      · exact ⟨[], by simp, by simp⟩
      · rename_i b0 heq
        split
        · rename_i hb0alive
          dsimp only
          refine ⟨[get_change b0 i st.bs grid cs P ⟨rng st.k, rng (st.k + 1)⟩], rfl, ?_⟩
          intro r hr
          rw [List.mem_singleton] at hr
          subst hr
          obtain ⟨b, a, hb, hb0, hat, -⟩ := aliveRel_lookup h heq
          refine ⟨b, hb, ?_, ?_⟩
          · rw [get_change_idx, hb0]
          · apply hat
            rw [hb0] at hb0alive
            exact hb0alive
        · exact ⟨[], by simp, by simp⟩
    obtain ⟨T, hT, hTmem⟩ := hstep
    rw [List.foldl_cons, hS, hT, List.append_assoc]
    refine ⟨T ++ S, rfl, ?_⟩
    intro r hr
    rcases List.mem_append.mp hr with h1 | h1
    · obtain ⟨b, hb, hidx, hal⟩ := hTmem r h1
      exact ⟨i, List.mem_cons_self i rest, b, hb, hidx, hal⟩
    · obtain ⟨i', hi', hrest⟩ := hSmem r h1
      exact ⟨i', List.mem_cons_of_mem _ hi', hrest⟩

/-! ### Commit-phase lemmas -/
theorem commitOne_length (P : Params) (bs : List Boid) (st : ChangeResult) :
    (commitOne P bs st).length = bs.length := by
  unfold commitOne
  split
  · rfl
  · simp [List.length_set]

theorem commitPhase_length (P : Params) (S : List ChangeResult) :
    ∀ bs : List Boid, (commitPhase P bs S).length = bs.length := by
  induction S with
  | nil => intro bs; rfl
  | cons st rest ih =>
    intro bs
    unfold commitPhase at ih ⊢
    rw [List.foldl_cons, ih, commitOne_length]

theorem commitOne_get_ne {st : ChangeResult} {j : ℕ} (h : st.idx ≠ j)
    (P : Params) (bs : List Boid) : (commitOne P bs st)[j]? = bs[j]? := by
  unfold commitOne
  split
  · rfl
  · rw [List.getElem?_set_ne h]

theorem commitPhase_get_of_forall_ne {S : List ChangeResult} {j : ℕ}
    (h : ∀ st ∈ S, st.idx ≠ j) (P : Params) :
    ∀ bs : List Boid, (commitPhase P bs S)[j]? = bs[j]? := by
  induction S with
  | nil => intro bs; rfl
  | cons st rest ih =>
    intro bs
    unfold commitPhase at ih ⊢
    rw [List.foldl_cons, ih (fun s hs => h s (List.mem_cons_of_mem st hs)),
      commitOne_get_ne (h st (List.mem_cons_self st rest))]

theorem commitOne_get_self {bs : List Boid} {st : ChangeResult} {b : Boid}
    (hb : bs[st.idx]? = some b) (P : Params) :
    (commitOne P bs st)[st.idx]? = some (applyState P st b) := by
  unfold commitOne
  split
  · rename_i heq
    rw [heq] at hb
    cases hb
  · rename_i b' heq
    rw [heq] at hb
    have hbb : b' = b := Option.some.inj hb
    subst hbb
    exact List.getElem?_set_eq_of_lt _ (List.getElem?_eq_some.mp heq).1

theorem commitPhase_get_single {S1 S2 : List ChangeResult} {r : ChangeResult} {j : ℕ}
    (h1 : ∀ st ∈ S1, st.idx ≠ j) (h2 : ∀ st ∈ S2, st.idx ≠ j) (hr : r.idx = j)
    (P : Params) {bs : List Boid} {b : Boid} (hb : bs[j]? = some b) :
    (commitPhase P bs (S1 ++ r :: S2))[j]? = some (applyState P r b) := by
  unfold commitPhase
  rw [List.foldl_append, List.foldl_cons]
  have hmid : (commitPhase P bs S1)[j]? = some b := by
    rw [commitPhase_get_of_forall_ne h1 P bs]
    exact hb
  have hone : (commitOne P (commitPhase P bs S1) r)[j]? = some (applyState P r b) := by
    rw [← hr] at hmid ⊢
    exact commitOne_get_self hmid P
  calc (List.foldl (commitOne P) (commitOne P (commitPhase P bs S1) r) S2)[j]?
      = (commitOne P (commitPhase P bs S1) r)[j]? :=
        commitPhase_get_of_forall_ne h2 P _
    _ = some (applyState P r b) := hone

/-! ### Master characterization of a tick

The committed post-tick state of each list slot is determined by the result
tuple `get_change` produced for it (replayed over the prefix of the
processing order before it), and dead-at-entry or unprocessed slots are left
untouched. -/
theorem computePhase_def (boids : List Boid) (order : List ℕ)
    (grid : ℤ × ℤ → List ℕ) (cs : ℝ) (P : Params) (rng : ℕ → ℝ) :
    computePhase boids order grid cs P rng =
      order.foldl (phaseStep grid cs P rng) ⟨boids, [], 0⟩ := rfl

theorem computePhase_append (boids : List Boid) (o1 o2 : List ℕ)
    (grid : ℤ × ℤ → List ℕ) (cs : ℝ) (P : Params) (rng : ℕ → ℝ) :
    computePhase boids (o1 ++ o2) grid cs P rng =
      o2.foldl (phaseStep grid cs P rng) (computePhase boids o1 grid cs P rng) := by
  unfold computePhase
  rw [List.foldl_append]

theorem update_with_order_def (boids : List Boid) (order : List ℕ) (P : Params)
    (rng : ℕ → ℝ) :
    update_boids_with_order boids order P rng =
      commitPhase P
        (computePhase boids order (populate_grid boids (P.visible_range * 1.1))
          (P.visible_range * 1.1) P rng).bs
        (computePhase boids order (populate_grid boids (P.visible_range * 1.1))
          (P.visible_range * 1.1) P rng).states := rfl

theorem phaseStep_of_alive {st : PhaseState} {i : ℕ} {b : Boid}
    (heq : st.bs[i]? = some b) (hb : b.alive = true) (grid : ℤ × ℤ → List ℕ)
    (cs : ℝ) (P : Params) (rng : ℕ → ℝ) :
    phaseStep grid cs P rng st i =
      ⟨if (get_change b i st.bs grid cs P ⟨rng st.k, rng (st.k + 1)⟩).alive = false
          then st.bs.set i { b with alive := false } else st.bs,
        st.states ++ [get_change b i st.bs grid cs P ⟨rng st.k, rng (st.k + 1)⟩],
        if wanderTaken b i st.bs grid cs P then st.k + 2 else st.k⟩ := by
  unfold phaseStep
  split
  · rename_i hn
    rw [hn] at heq
    cases heq
  · rename_i b' hn
    rw [hn] at heq
    obtain rfl : b' = b := Option.some.inj heq
    rw [if_pos hb]

theorem phaseStep_of_dead {st : PhaseState} {i : ℕ} {b : Boid}
    (heq : st.bs[i]? = some b) (hb : b.alive = false) (grid : ℤ × ℤ → List ℕ)
    (cs : ℝ) (P : Params) (rng : ℕ → ℝ) :
    phaseStep grid cs P rng st i = st := by
  unfold phaseStep
  split
  · rfl
  · rename_i b' hn
    rw [hn] at heq
    obtain rfl : b' = b := Option.some.inj heq
    rw [if_neg (by simp [hb])]

theorem resultAt_eq {boids : List Boid} {order : List ℕ} {P : Params} {rng : ℕ → ℝ}
    {j : ℕ} {b : Boid}
    (hb : (computePhase boids (prefixBefore order j)
        (populate_grid boids (P.visible_range * 1.1)) (P.visible_range * 1.1) P
        rng).bs[j]? = some b) :
    resultAt boids order P rng j =
      get_change b j
        (computePhase boids (prefixBefore order j)
          (populate_grid boids (P.visible_range * 1.1)) (P.visible_range * 1.1) P rng).bs
        (populate_grid boids (P.visible_range * 1.1)) (P.visible_range * 1.1) P
        ⟨rng (computePhase boids (prefixBefore order j)
            (populate_grid boids (P.visible_range * 1.1)) (P.visible_range * 1.1) P rng).k,
          rng ((computePhase boids (prefixBefore order j)
            (populate_grid boids (P.visible_range * 1.1)) (P.visible_range * 1.1) P rng).k
            + 1)⟩ := by
  unfold resultAt
  dsimp only
  split
  · rename_i hn
    rw [hn] at hb
    cases hb
  · rename_i b' hn
    rw [hn] at hb
    obtain rfl : b' = b := Option.some.inj hb
    rfl

theorem proposalAt_eq {boids : List Boid} {order : List ℕ} {P : Params} {rng : ℕ → ℝ}
    {j : ℕ} {b : Boid}
    (hb : (computePhase boids (prefixBefore order j)
        (populate_grid boids (P.visible_range * 1.1)) (P.visible_range * 1.1) P
        rng).bs[j]? = some b) :
    proposalAt boids order P rng j =
      get_change_proposed b j
        (computePhase boids (prefixBefore order j)
          (populate_grid boids (P.visible_range * 1.1)) (P.visible_range * 1.1) P rng).bs
        (populate_grid boids (P.visible_range * 1.1)) (P.visible_range * 1.1) P
        ⟨rng (computePhase boids (prefixBefore order j)
            (populate_grid boids (P.visible_range * 1.1)) (P.visible_range * 1.1) P rng).k,
          rng ((computePhase boids (prefixBefore order j)
            (populate_grid boids (P.visible_range * 1.1)) (P.visible_range * 1.1) P rng).k
            + 1)⟩ := by
  unfold proposalAt
  dsimp only
  split
  · rename_i hn
    rw [hn] at hb
    cases hb
  · rename_i b' hn
    rw [hn] at hb
    obtain rfl : b' = b := Option.some.inj hb
    rfl

theorem not_mem_prefixBefore (order : List ℕ) (j : ℕ) : j ∉ prefixBefore order j := by
  unfold prefixBefore
  intro h
  have := List.mem_takeWhile_imp h
  simp at this

theorem split_prefixBefore {order : List ℕ} {j : ℕ} (h : j ∈ order) :
    ∃ suf, order = prefixBefore order j ++ j :: suf := by
  induction order with
  | nil => cases h
  | cons k rest ih =>
    by_cases hk : k = j
    · subst hk
      refine ⟨rest, ?_⟩
      unfold prefixBefore
      rw [List.takeWhile_cons_of_neg (by simp)]
      rfl
    · have hmem : j ∈ rest := by
        rcases List.mem_cons.mp h with h1 | h1
        · exact absurd h1.symm hk
        · exact h1
      obtain ⟨suf, hsuf⟩ := ih hmem
      refine ⟨suf, ?_⟩
      unfold prefixBefore at hsuf ⊢
      rw [List.takeWhile_cons_of_pos (by simp [hk]), List.cons_append, ← hsuf]

theorem applyState_update (P : Params) (r : ChangeResult) (b : Boid) (a : Bool) :
    applyState P r { b with alive := a } =
      { b with
          alive := a,
          colour := if r.alive = false then ((0 : ℤ), (0 : ℤ), (0 : ℤ)) else b.colour,
          position := clampPos P r.final_position,
          velocity := r.final_velocity,
          current_speed := r.final_speed } := by
  unfold applyState
  split <;> rfl

theorem update_with_order_getElem (boids : List Boid) (order : List ℕ) (P : Params)
    (rng : ℕ → ℝ)
    (Hidx : ∀ (j : ℕ) (b : Boid), boids[j]? = some b → b.idx = j)
    (Hnd : order.Nodup) (j : ℕ) (b : Boid) (hj : boids[j]? = some b) :
    (update_boids_with_order boids order P rng)[j]? =
      some (if b.alive = true ∧ j ∈ order then
              { b with
                  alive := (resultAt boids order P rng j).alive,
                  colour := if (resultAt boids order P rng j).alive = false
                            then ((0 : ℤ), (0 : ℤ), (0 : ℤ)) else b.colour,
                  position := clampPos P (resultAt boids order P rng j).final_position,
                  velocity := (resultAt boids order P rng j).final_velocity,
                  current_speed := (resultAt boids order P rng j).final_speed }
            else b) := by
  rw [update_with_order_def]
  set cs := P.visible_range * 1.1 with hcs
  set grid := populate_grid boids cs with hgrid
  by_cases hmem : j ∈ order
  · obtain ⟨suf, hsplit⟩ := split_prefixBefore hmem
    set pre := prefixBefore order j with hpre
    have hjpre : j ∉ pre := not_mem_prefixBefore order j
    have hjsuf : j ∉ suf := by
      have := hsplit ▸ Hnd
      exact (List.nodup_cons.mp (List.nodup_append.mp this).2.1).1
    set st1 := computePhase boids pre grid cs P rng with hst1
    have hst1rel : AliveRel boids st1.bs := by
      rw [hst1, computePhase_def]
      exact foldl_phaseStep_aliveRel boids pre grid cs P rng _ (aliveRel_refl boids)
    have hst1j : st1.bs[j]? = some b := by
      rw [hst1, computePhase_def]
      rw [foldl_phaseStep_get_of_not_mem grid cs P rng hjpre]
      exact hj
    obtain ⟨S1, hS1, hS1mem⟩ :
        ∃ S, st1.states = [] ++ S ∧
          ∀ r ∈ S, ∃ i ∈ pre, ∃ b', boids[i]? = some b' ∧ r.idx = b'.idx ∧
            b'.alive = true := by
      rw [hst1, computePhase_def]
      exact foldl_phaseStep_states boids grid cs P rng pre _ (aliveRel_refl boids)
    rw [List.nil_append] at hS1
    have hS1ne : ∀ r ∈ S1, r.idx ≠ j := by
      intro r hr
      obtain ⟨i, hi, b', hb', hidx, -⟩ := hS1mem r hr
      rw [hidx, Hidx i b' hb']
      intro he
      exact hjpre (he ▸ hi)
    have hfull : computePhase boids order grid cs P rng =
        suf.foldl (phaseStep grid cs P rng) (phaseStep grid cs P rng st1 j) := by
      rw [hsplit, computePhase_append, ← List.singleton_append, List.foldl_append]
      rfl
    by_cases halive : b.alive = true
    · have hr : resultAt boids order P rng j =
          get_change b j st1.bs grid cs P ⟨rng st1.k, rng (st1.k + 1)⟩ :=
        resultAt_eq hst1j
      set r := get_change b j st1.bs grid cs P ⟨rng st1.k, rng (st1.k + 1)⟩ with hrdef
      have hstepj := phaseStep_of_alive hst1j halive grid cs P rng
      have hst2rel : AliveRel boids (phaseStep grid cs P rng st1 j).bs :=
        phaseStep_aliveRel hst1rel grid cs P rng j
      obtain ⟨S2, hS2, hS2mem⟩ := foldl_phaseStep_states boids grid cs P rng suf _ hst2rel
      have hS2ne : ∀ s ∈ S2, s.idx ≠ j := by
        intro s hs
        obtain ⟨i, hi, b', hb', hidx, -⟩ := hS2mem s hs
        rw [hidx, Hidx i b' hb']
        intro he
        exact hjsuf (he ▸ hi)
      have hstates : (computePhase boids order grid cs P rng).states =
          S1 ++ r :: S2 := by
        rw [hfull, hS2, hstepj]
        dsimp only
        rw [hS1, List.append_assoc, List.singleton_append]
      have hbsj : (computePhase boids order grid cs P rng).bs[j]? =
          some { b with alive := r.alive } := by
        rw [hfull, foldl_phaseStep_get_of_not_mem grid cs P rng hjsuf, hstepj]
        dsimp only
        by_cases hra : r.alive = false
        · rw [if_pos (show (get_change b j st1.bs grid cs P
              ⟨rng st1.k, rng (st1.k + 1)⟩).alive = false from hrdef ▸ hra)]
          rw [List.getElem?_set_eq_of_lt _ (List.getElem?_eq_some.mp hst1j).1, hra]
        · have hra' : r.alive = true := by
            cases h : r.alive
            · exact absurd h hra
            · rfl
          rw [if_neg (show ¬ (get_change b j st1.bs grid cs P
              ⟨rng st1.k, rng (st1.k + 1)⟩).alive = false from hrdef ▸ hra)]
          have hbt : ({ b with alive := true } : Boid) = b := by
            rw [← halive]
          rw [hra', hbt]
          exact hst1j
      have hridx : r.idx = j := by
        rw [hrdef, get_change_idx]
        exact Hidx j b hj
      rw [hstates, commitPhase_get_single hS1ne hS2ne hridx P hbsj,
        applyState_update, hr,
        if_pos (show b.alive = true ∧ j ∈ order from ⟨halive, hmem⟩)]
    · have hdead : b.alive = false := by
        cases hba : b.alive
        · rfl
        · exact absurd hba halive
      have hstepj := phaseStep_of_dead hst1j hdead grid cs P rng
      obtain ⟨S2, hS2, hS2mem⟩ := foldl_phaseStep_states boids grid cs P rng suf st1 hst1rel
      have hS2ne : ∀ s ∈ S2, s.idx ≠ j := by
        intro s hs
        obtain ⟨i, hi, b', hb', hidx, -⟩ := hS2mem s hs
        rw [hidx, Hidx i b' hb']
        intro he
        exact hjsuf (he ▸ hi)
      have hstates : (computePhase boids order grid cs P rng).states = S1 ++ S2 := by
        rw [hfull, hstepj, hS2, hS1]
      have hbsj : (computePhase boids order grid cs P rng).bs[j]? = some b := by
        rw [hfull, hstepj, foldl_phaseStep_get_of_not_mem grid cs P rng hjsuf]
        exact hst1j
      have hne : ∀ s ∈ S1 ++ S2, s.idx ≠ j := by
        intro s hs
        rcases List.mem_append.mp hs with h1 | h1
        · exact hS1ne s h1
        · exact hS2ne s h1
      rw [hstates, commitPhase_get_of_forall_ne hne P, hbsj,
        if_neg (fun hc => halive hc.1)]
  · obtain ⟨S, hS, hSmem⟩ :
        ∃ S, (computePhase boids order grid cs P rng).states = [] ++ S ∧
          ∀ r ∈ S, ∃ i ∈ order, ∃ b', boids[i]? = some b' ∧ r.idx = b'.idx ∧
            b'.alive = true := by
      rw [computePhase_def]
      exact foldl_phaseStep_states boids grid cs P rng order _ (aliveRel_refl boids)
    rw [List.nil_append] at hS
    have hSne : ∀ r ∈ S, r.idx ≠ j := by
      intro r hr
      obtain ⟨i, hi, b', hb', hidx, -⟩ := hSmem r hr
      rw [hidx, Hidx i b' hb']
      intro he
      exact hmem (he ▸ hi)
    have hbsj : (computePhase boids order grid cs P rng).bs[j]? = some b := by
      rw [computePhase_def, foldl_phaseStep_get_of_not_mem grid cs P rng hmem]
      exact hj
    rw [hS, commitPhase_get_of_forall_ne hSne P, hbsj,
      if_neg (fun hc => hmem hc.2)]

theorem update_with_order_length (boids : List Boid) (order : List ℕ) (P : Params)
    (rng : ℕ → ℝ) :
    (update_boids_with_order boids order P rng).length = boids.length := by
  rw [update_with_order_def, commitPhase_length, computePhase_def,
    foldl_phaseStep_length]

/-! ### Speed regulation -/
theorem regulate_pos_def {ms Ms : ℝ} {v : Vec2} (hv : 0 < v.length) :
    regulate ms Ms v =
      (Vec2.scaleToLength (max ms (min v.length Ms)) v, max ms (min v.length Ms)) := by
  unfold regulate
  rw [if_pos hv]

theorem regulate_zero_def {ms Ms : ℝ} {v : Vec2} (hv : ¬ 0 < v.length) :
    regulate ms Ms v = (⟨ms, 0⟩, ms) := by
  unfold regulate
  rw [if_neg hv]

theorem regulate_speed_bounds {ms Ms : ℝ} (h0 : 0 ≤ ms) (hmm : ms ≤ Ms) {v : Vec2}
    (hv : 0 < v.length) :
    ms ≤ (regulate ms Ms v).2 ∧ (regulate ms Ms v).2 ≤ Ms ∧
      (regulate ms Ms v).1.length = (regulate ms Ms v).2 := by
  rw [regulate_pos_def hv]
  refine ⟨le_max_left _ _, ?_, ?_⟩
  · exact max_le hmm (le_trans (min_le_right _ _) le_rfl)
  · exact Vec2.length_scaleToLength hv (le_trans h0 (le_max_left _ _))

theorem regulate_speed_below {ms Ms : ℝ} (hmm : ms ≤ Ms) {v : Vec2}
    (hv : 0 < v.length) (h : v.length < ms) : (regulate ms Ms v).2 = ms := by
  rw [regulate_pos_def hv]
  dsimp only
  rw [min_eq_left (le_trans (le_of_lt h) hmm), max_eq_left (le_of_lt h)]

theorem regulate_speed_above {ms Ms : ℝ} (hmm : ms ≤ Ms) {v : Vec2}
    (hv : 0 < v.length) (h : Ms < v.length) : (regulate ms Ms v).2 = Ms := by
  rw [regulate_pos_def hv]
  dsimp only
  rw [min_eq_right (le_of_lt h), max_eq_right hmm]

theorem regulate_in_range {ms Ms : ℝ} {v : Vec2} (hv : 0 < v.length)
    (h1 : ms ≤ v.length) (h2 : v.length ≤ Ms) : (regulate ms Ms v).1 = v := by
  rw [regulate_pos_def hv]
  dsimp only
  rw [min_eq_left h2, max_eq_right h1]
  exact Vec2.scaleToLength_self (ne_of_gt hv)

/-! ### Neighbor-scan completeness -/
theorem floor_close {a b : ℝ} (h : |a - b| < 1) : ⌊b⌋ - 1 ≤ ⌊a⌋ ∧ ⌊a⌋ ≤ ⌊b⌋ + 1 := by
  rw [abs_lt] at h
  obtain ⟨h1, h2⟩ := h
  have fa1 : (⌊a⌋ : ℝ) ≤ a := Int.floor_le a
  have fa2 : a < ⌊a⌋ + 1 := Int.lt_floor_add_one a
  have fb1 : (⌊b⌋ : ℝ) ≤ b := Int.floor_le b
  have fb2 : b < ⌊b⌋ + 1 := Int.lt_floor_add_one b
  constructor
  · have : (⌊b⌋ : ℝ) < (⌊a⌋ : ℝ) + 2 := by linarith
    have hz : ⌊b⌋ < ⌊a⌋ + 2 := by exact_mod_cast this
    omega
  · have : (⌊a⌋ : ℝ) < (⌊b⌋ : ℝ) + 2 := by linarith
    have hz : ⌊a⌋ < ⌊b⌋ + 2 := by exact_mod_cast this
    omega

theorem cellOf_adjacent {p q : Vec2} {cs : ℝ} (hcs : 0 < cs)
    (hx : |q.x - p.x| < cs) (hy : |q.y - p.y| < cs) :
    ∃ off ∈ scanOffsets,
      cellOf q cs = ((cellOf p cs).1 + off.1, (cellOf p cs).2 + off.2) := by
  have hdx : |q.x / cs - p.x / cs| < 1 := by
    rw [div_sub_div_same, abs_div, abs_of_pos hcs]
    exact (div_lt_one hcs).mpr hx
  have hdy : |q.y / cs - p.y / cs| < 1 := by
    rw [div_sub_div_same, abs_div, abs_of_pos hcs]
    exact (div_lt_one hcs).mpr hy
  obtain ⟨hx1, hx2⟩ := floor_close hdx
  obtain ⟨hy1, hy2⟩ := floor_close hdy
  refine ⟨(⌊q.x / cs⌋ - ⌊p.x / cs⌋, ⌊q.y / cs⌋ - ⌊p.y / cs⌋), ?_, ?_⟩
  · have hdx3 : ⌊q.x / cs⌋ - ⌊p.x / cs⌋ = -1 ∨ ⌊q.x / cs⌋ - ⌊p.x / cs⌋ = 0 ∨
        ⌊q.x / cs⌋ - ⌊p.x / cs⌋ = 1 := by omega
    have hdy3 : ⌊q.y / cs⌋ - ⌊p.y / cs⌋ = -1 ∨ ⌊q.y / cs⌋ - ⌊p.y / cs⌋ = 0 ∨
        ⌊q.y / cs⌋ - ⌊p.y / cs⌋ = 1 := by omega
    rcases hdx3 with h3 | h3 | h3 <;> rcases hdy3 with h4 | h4 | h4 <;>
      simp [scanOffsets, h3, h4]
  · unfold cellOf
    simp only [Prod.mk.injEq]
    omega

theorem axis_close_of_distSq {b o : Vec2} {R : ℝ} (hR : 0 ≤ R)
    (h : Vec2.distSq b o < R ^ 2) : |o.x - b.x| < R ∧ |o.y - b.y| < R := by
  unfold Vec2.distSq Vec2.lengthSq at h
  rw [Vec2.sub_x, Vec2.sub_y] at h
  constructor
  · have hx : (o.x - b.x) ^ 2 < R ^ 2 := by nlinarith [sq_nonneg (b.y - o.y)]
    exact abs_lt_of_sq_lt_sq hx hR
  · have hy : (o.y - b.y) ^ 2 < R ^ 2 := by nlinarith [sq_nonneg (b.x - o.x)]
    exact abs_lt_of_sq_lt_sq hy hR

theorem mem_grid_self {boids : List Boid} {i : ℕ} {b : Boid}
    (h : boids[i]? = some b) (cs : ℝ) :
    i ∈ populate_grid boids cs (cellOf b.position cs) := by
  unfold populate_grid
  rw [List.mem_filter]
  refine ⟨List.mem_range.mpr (List.getElem?_eq_some.mp h).1, ?_⟩
  rw [h]
  simp

theorem mem_scanIndices_of_close {boids : List Boid} {j : ℕ} {b o : Boid} {cs : ℝ}
    (hcs : 0 < cs) (hj : boids[j]? = some o)
    (hx : |o.position.x - b.position.x| < cs)
    (hy : |o.position.y - b.position.y| < cs) :
    j ∈ scanIndices (populate_grid boids cs) (cellOf b.position cs) := by
  obtain ⟨off, hoff, he⟩ := cellOf_adjacent hcs hx hy
  unfold scanIndices
  rw [List.mem_flatMap]
  refine ⟨off, hoff, ?_⟩
  rw [← he]
  exact mem_grid_self hj cs

/-! ### Flee-force facts -/
theorem clampedDistSq_ge {boid p : Boid} {sd : ℝ} :
    sd ^ 2 ≤ clampedDistSq boid p sd := by
  unfold clampedDistSq
  dsimp only
  split
  · exact le_rfl
  · rename_i h
    exact le_of_not_lt h

theorem clampedDistSq_pos {boid p : Boid} {sd : ℝ} (hsd : 0 < sd) :
    0 < clampedDistSq boid p sd :=
  lt_of_lt_of_le (by positivity) clampedDistSq_ge

theorem calculate_flee_velocity_of_zero {boid : Boid} {predators : List Boid}
    {fs sd : ℝ} (h : (totalRepulsion boid predators sd).length = 0) :
    calculate_flee_velocity boid predators fs sd = Vec2.zero := by
  unfold calculate_flee_velocity
  split
  · rfl
  · rw [if_neg (by rw [h]; exact lt_irrefl 0)]

theorem calculate_flee_velocity_of_pos {boid : Boid} {predators : List Boid}
    {fs sd : ℝ} (hne : predators ≠ [])
    (h : 0 < (totalRepulsion boid predators sd).length) :
    calculate_flee_velocity boid predators fs sd =
      Vec2.mulScalar (totalRepulsion boid predators sd).normalize fs := by
  unfold calculate_flee_velocity
  rw [if_neg hne, if_pos h]

theorem length_normalize_mulScalar {v : Vec2} (hv : 0 < v.length) {fs : ℝ}
    (hfs : 0 ≤ fs) : (Vec2.mulScalar v.normalize fs).length = fs := by
  unfold Vec2.normalize
  have h1 : Vec2.divScalar v v.length = Vec2.mulScalar v (1 / v.length) := by
    unfold Vec2.divScalar Vec2.mulScalar
    rw [Vec2.eq_iff]
    constructor <;> simp <;> ring
  rw [h1]
  unfold Vec2.mulScalar
  have h2 : (⟨v.x * (1 / v.length), v.y * (1 / v.length)⟩ : Vec2) =
      Vec2.mulScalar v (1 / v.length) := rfl
  have hlen1 : (Vec2.mulScalar v (1 / v.length)).length = 1 := by
    rw [Vec2.length_mulScalar, abs_of_pos (by positivity), one_div,
      inv_mul_cancel₀ (ne_of_gt hv)]
  calc (Vec2.mulScalar (Vec2.mulScalar v (1 / v.length)) fs).length
      = |fs| * (Vec2.mulScalar v (1 / v.length)).length := by
        rw [Vec2.length_mulScalar]
    _ = fs := by rw [hlen1, mul_one, abs_of_nonneg hfs]

/-! ### Wander irrelevance and capture-free order independence -/
theorem get_change_alive_irrel (self : Boid) (sp : ℕ) (bs : List Boid)
    (grid : ℤ × ℤ → List ℕ) (cs : ℝ) (P : Params) (w w' : Vec2) :
    (get_change self sp bs grid cs P w).alive =
      (get_change self sp bs grid cs P w').alive := by
  unfold get_change get_change_proposed
  cases hs : scanFold self sp P.visible_range P.protected_range bs
      (scanIndices grid (cellOf self.position cs)) initAcc <;> simp [hs]

theorem get_change_wander_irrel {self : Boid} {sp : ℕ} {bs : List Boid}
    {grid : ℤ × ℤ → List ℕ} {cs : ℝ} {P : Params}
    (h : wanderTaken self sp bs grid cs P = false) (w w' : Vec2) :
    get_change self sp bs grid cs P w = get_change self sp bs grid cs P w' := by
  unfold wanderTaken at h
  unfold get_change get_change_proposed
  cases hs : scanFold self sp P.visible_range P.protected_range bs
      (scanIndices grid (cellOf self.position cs)) initAcc with
  | none => rfl
  | some acc =>
    rw [hs] at h
    simp only [hs]
    by_cases hp : self.predator = false
    · rw [if_pos hp, if_pos hp]
    · rw [if_neg hp, if_neg hp]
      have hp' : self.predator = true := by
        cases hq : self.predator
        · exact absurd hq hp
        · rfl
      have hcount : acc.neighboring_prey_count ≠ 0 := by
        rw [hp'] at h
        simpa using h
      unfold predatorRules
      rw [if_pos (Nat.pos_of_ne_zero hcount), if_pos (Nat.pos_of_ne_zero hcount)]

theorem computePhase_no_capture {boids : List Boid} {grid : ℤ × ℤ → List ℕ}
    {cs : ℝ} {P : Params}
    (Hnc : ∀ (i : ℕ) (b : Boid), boids[i]? = some b → b.alive = true →
      (get_change b i boids grid cs P Vec2.zero).alive = true)
    (Hnw : ∀ (i : ℕ) (b : Boid), boids[i]? = some b → b.alive = true →
      wanderTaken b i boids grid cs P = false)
    (rng : ℕ → ℝ) (order : List ℕ) :
    computePhase boids order grid cs P rng =
      ⟨boids,
        order.filterMap fun i =>
          match boids[i]? with
          | none => none
          | some b =>
            if b.alive = true then some (get_change b i boids grid cs P Vec2.zero)
            else none,
        0⟩ := by
  rw [computePhase_def]
  have main : ∀ (ord : List ℕ) (s0 : List ChangeResult),
      ord.foldl (phaseStep grid cs P rng) ⟨boids, s0, 0⟩ =
        ⟨boids,
          s0 ++ ord.filterMap fun i =>
            match boids[i]? with
            | none => none
            | some b =>
              if b.alive = true then some (get_change b i boids grid cs P Vec2.zero)
              else none,
          0⟩ := by
    intro ord
    induction ord with
    | nil => intro s0; simp
    | cons i rest ih =>
      intro s0
      rw [List.foldl_cons]
      cases hb : boids[i]? with
      | none =>
        have hstep : phaseStep grid cs P rng ⟨boids, s0, 0⟩ i = ⟨boids, s0, 0⟩ := by
          unfold phaseStep
          dsimp only
          rw [hb]
        rw [hstep, ih s0]
        simp only [List.filterMap_cons, hb]
      | some b =>
        by_cases halive : b.alive = true
        · have hwt := Hnw i b hb halive
          have hwirr := get_change_wander_irrel hwt
            (⟨rng 0, rng (0 + 1)⟩ : Vec2) Vec2.zero
          have hralive : (get_change b i boids grid cs P
              ⟨rng 0, rng (0 + 1)⟩).alive = true := by
            rw [hwirr]
            exact Hnc i b hb halive
          have hstep : phaseStep grid cs P rng ⟨boids, s0, 0⟩ i =
              ⟨boids, s0 ++ [get_change b i boids grid cs P Vec2.zero], 0⟩ := by
            have := phaseStep_of_alive
              (show ((⟨boids, s0, 0⟩ : PhaseState)).bs[i]? = some b from hb) halive
              grid cs P rng
            rw [this]
            dsimp only
            rw [if_neg (by rw [hralive]; simp), if_neg (by rw [hwt]; simp), hwirr]
          rw [hstep, ih]
          simp only [List.filterMap_cons, hb]
          rw [if_pos halive, List.append_assoc, List.singleton_append]
        · have hdead : b.alive = false := by
            cases hq : b.alive
            · rfl
            · exact absurd hq halive
          have hstep : phaseStep grid cs P rng ⟨boids, s0, 0⟩ i = ⟨boids, s0, 0⟩ :=
            phaseStep_of_dead
              (show ((⟨boids, s0, 0⟩ : PhaseState)).bs[i]? = some b from hb) hdead
              grid cs P rng
          rw [hstep, ih s0]
          simp only [List.filterMap_cons, hb]
          rw [if_neg halive]
  exact main order []

theorem update_order_irrelevant (boids : List Boid) (P : Params) (order : List ℕ)
    (Hidx : ∀ (j : ℕ) (b : Boid), boids[j]? = some b → b.idx = j)
    (Hperm : order.Perm (List.range boids.length))
    (Hnc : ∀ (i : ℕ) (b : Boid), boids[i]? = some b → b.alive = true →
      (get_change b i boids (populate_grid boids (P.visible_range * 1.1))
        (P.visible_range * 1.1) P Vec2.zero).alive = true)
    (Hnw : ∀ (i : ℕ) (b : Boid), boids[i]? = some b → b.alive = true →
      wanderTaken b i boids (populate_grid boids (P.visible_range * 1.1))
        (P.visible_range * 1.1) P = false)
    (rng rng' : ℕ → ℝ) :
    update_boids_with_order boids order P rng = update_boids boids P rng' := by
  apply List.ext_getElem?
  intro j
  by_cases hj : j < boids.length
  · have hb : boids[j]? = some boids[j] := List.getElem?_eq_getElem hj
    have Hnd1 : order.Nodup := Hperm.nodup_iff.mpr (List.nodup_range _)
    have Hnd2 : (List.range boids.length).Nodup := List.nodup_range _
    rw [update_with_order_getElem boids order P rng Hidx Hnd1 j _ hb]
    rw [show update_boids boids P rng' =
      update_boids_with_order boids (List.range boids.length) P rng' from rfl]
    rw [update_with_order_getElem boids _ P rng' Hidx Hnd2 j _ hb]
    have hres : boids[j].alive = true → ∀ (ord : List ℕ) (rg : ℕ → ℝ),
        resultAt boids ord P rg j =
          get_change boids[j] j boids (populate_grid boids (P.visible_range * 1.1))
            (P.visible_range * 1.1) P Vec2.zero := by
      intro halive ord rg
      have hmid := computePhase_no_capture Hnc Hnw rg (prefixBefore ord j)
      have hmb : (computePhase boids (prefixBefore ord j)
          (populate_grid boids (P.visible_range * 1.1)) (P.visible_range * 1.1) P
          rg).bs[j]? = some boids[j] := by
        rw [hmid]
        exact hb
      rw [resultAt_eq hmb, hmid]
      exact get_change_wander_irrel (Hnw j boids[j] hb halive) _ _
    by_cases halive : boids[j].alive = true ∧ j ∈ order
    · have hmem2 : boids[j].alive = true ∧ j ∈ List.range boids.length :=
        ⟨halive.1, Hperm.mem_iff.mp halive.2⟩
      rw [if_pos halive, if_pos hmem2, hres halive.1 order rng,
        hres halive.1 (List.range boids.length) rng']
    · rw [if_neg halive, if_neg (fun hc => halive ⟨hc.1, Hperm.mem_iff.mpr hc.2⟩)]
  · have h1 : (update_boids_with_order boids order P rng)[j]? = none :=
      List.getElem?_eq_none (by rw [update_with_order_length]; omega)
    have h2 : (update_boids boids P rng')[j]? = none :=
      List.getElem?_eq_none (by
        rw [show update_boids boids P rng' =
          update_boids_with_order boids (List.range boids.length) P rng' from rfl,
          update_with_order_length]
        omega)
    rw [h1, h2]

/-! ### Canonical-order corollaries -/
theorem update_boids_length (boids : List Boid) (P : Params) (rng : ℕ → ℝ) :
    (update_boids boids P rng).length = boids.length :=
  update_with_order_length boids (List.range boids.length) P rng

theorem update_boids_getElem (boids : List Boid) (P : Params) (rng : ℕ → ℝ)
    (Hidx : ∀ (j : ℕ) (b : Boid), boids[j]? = some b → b.idx = j)
    (j : ℕ) (b : Boid) (hj : boids[j]? = some b) :
    (update_boids boids P rng)[j]? =
      some (if b.alive = true ∧ j ∈ List.range boids.length then
              { b with
                  alive := (resultAt boids (List.range boids.length) P rng j).alive,
                  colour := if (resultAt boids (List.range boids.length) P rng j).alive
                              = false
                            then ((0 : ℤ), (0 : ℤ), (0 : ℤ)) else b.colour,
                  position := clampPos P
                    (resultAt boids (List.range boids.length) P rng j).final_position,
                  velocity :=
                    (resultAt boids (List.range boids.length) P rng j).final_velocity,
                  current_speed :=
                    (resultAt boids (List.range boids.length) P rng j).final_speed }
            else b) :=
  update_with_order_getElem boids (List.range boids.length) P rng Hidx
    (List.nodup_range _) j b hj

theorem getElem_update_of_result {boids : List Boid} {P : Params} {rng : ℕ → ℝ}
    (Hidx : ∀ (j : ℕ) (b : Boid), boids[j]? = some b → b.idx = j)
    {i : ℕ} {b : Boid} (hb : boids[i]? = some b) (halive : b.alive = true)
    {r : ChangeResult} (hres : resultAt boids (List.range boids.length) P rng i = r) :
    (update_boids boids P rng)[i]? =
      some { b with
               alive := r.alive,
               colour := if r.alive = false then ((0 : ℤ), (0 : ℤ), (0 : ℤ))
                         else b.colour,
               position := clampPos P r.final_position,
               velocity := r.final_velocity,
               current_speed := r.final_speed } := by
  have hmem : i ∈ List.range boids.length :=
    List.mem_range.mpr (List.getElem?_eq_some.mp hb).1
  rw [update_boids_getElem boids P rng Hidx i b hb,
    if_pos (⟨halive, hmem⟩ : b.alive = true ∧ i ∈ List.range boids.length), hres]

theorem mid_bs_getElem (boids : List Boid) (order : List ℕ) (j : ℕ) (P : Params)
    (rng : ℕ → ℝ) :
    (computePhase boids (prefixBefore order j)
      (populate_grid boids (P.visible_range * 1.1)) (P.visible_range * 1.1) P
      rng).bs[j]? = boids[j]? := by
  rw [computePhase_def]
  exact foldl_phaseStep_get_of_not_mem _ _ _ _ (not_mem_prefixBefore order j) _

theorem get_change_some_of_alive {self : Boid} {sp : ℕ} {bs : List Boid}
    {grid : ℤ × ℤ → List ℕ} {cs : ℝ} {P : Params} {w : Vec2}
    (hr : (get_change self sp bs grid cs P w).alive = true) :
    ∃ nv, get_change_proposed self sp bs grid cs P w = some nv := by
  cases hp : get_change_proposed self sp bs grid cs P w with
  | none =>
    rw [get_change_of_proposed_none hp] at hr
    exact absurd hr (by simp)
  | some nv => exact ⟨nv, rfl⟩

theorem update_idx_preserved (boids : List Boid) (P : Params) (rng : ℕ → ℝ)
    (Hidx : ∀ (j : ℕ) (b : Boid), boids[j]? = some b → b.idx = j) :
    ∀ (j : ℕ) (b' : Boid), (update_boids boids P rng)[j]? = some b' → b'.idx = j := by
  intro j b' h
  have hjlen : j < boids.length := by
    have := (List.getElem?_eq_some.mp h).1
    rw [update_boids_length] at this
    exact this
  have hb : boids[j]? = some boids[j] := List.getElem?_eq_getElem hjlen
  rw [update_boids_getElem boids P rng Hidx j _ hb] at h
  have h2 : b' = _ := (Option.some.inj h).symm
  rw [h2]
  split
  · exact Hidx j boids[j] hb
  · exact Hidx j boids[j] hb

theorem update_frozen_of_dead {boids : List Boid} {P : Params} {rng : ℕ → ℝ}
    (Hidx : ∀ (j : ℕ) (b : Boid), boids[j]? = some b → b.idx = j)
    {i : ℕ} {b : Boid} (hb : boids[i]? = some b) (hdead : b.alive = false) :
    (update_boids boids P rng)[i]? = some b := by
  rw [update_boids_getElem boids P rng Hidx i b hb, if_neg]
  intro hc
  rw [hdead] at hc
  exact Bool.noConfusion hc.1

theorem computePhase_states_idx_ne_dead (boids : List Boid)
    (grid : ℤ × ℤ → List ℕ) (cs : ℝ) (P : Params) (rng : ℕ → ℝ) (order : List ℕ)
    (Hidx : ∀ (j : ℕ) (b : Boid), boids[j]? = some b → b.idx = j)
    {i : ℕ} {b : Boid} (hb : boids[i]? = some b) (hdead : b.alive = false) :
    ∀ st ∈ (computePhase boids order grid cs P rng).states, st.idx ≠ i := by
  intro st hst
  obtain ⟨S, hS, hmem⟩ :=
    foldl_phaseStep_states boids grid cs P rng order ⟨boids, [], 0⟩ (aliveRel_refl boids)
  rw [computePhase_def] at hst
  rw [hS, List.nil_append] at hst
  obtain ⟨i2, hi2, b', hb', hidx, halive'⟩ := hmem st hst
  intro he
  rw [hidx, Hidx i2 b' hb'] at he
  subst he
  rw [hb] at hb'
  have : b = b' := Option.some.inj hb'
  rw [← this] at halive'
  rw [hdead] at halive'
  exact Bool.noConfusion halive'

theorem clampPos_zero {P : Params} (hw : 1 ≤ P.width) (hh : 1 ≤ P.height) :
    clampPos P Vec2.zero = Vec2.zero := by
  have hw2 : (0 : ℝ) ≤ ((P.width - 1 : ℤ) : ℝ) := by
    have h1 : (0 : ℤ) ≤ P.width - 1 := by omega
    exact_mod_cast h1
  have hh2 : (0 : ℝ) ≤ ((P.height - 1 : ℤ) : ℝ) := by
    have h1 : (0 : ℤ) ≤ P.height - 1 := by omega
    exact_mod_cast h1
  unfold clampPos Vec2.zero
  rw [Vec2.eq_iff]
  simp only [Vec2.x_mk, Vec2.y_mk]
  constructor
  · rw [min_eq_right hw2, max_self]
  · rw [min_eq_right hh2, max_self]

theorem clampPos_inBounds {P : Params} (hw : 1 ≤ P.width) (hh : 1 ≤ P.height)
    (p : Vec2) : inBounds P (clampPos P p) := by
  have hw2 : (0 : ℝ) ≤ ((P.width - 1 : ℤ) : ℝ) := by
    have h1 : (0 : ℤ) ≤ P.width - 1 := by omega
    exact_mod_cast h1
  have hh2 : (0 : ℝ) ≤ ((P.height - 1 : ℤ) : ℝ) := by
    have h1 : (0 : ℤ) ≤ P.height - 1 := by omega
    exact_mod_cast h1
  unfold inBounds clampPos
  refine ⟨le_max_left _ _, ?_, le_max_left _ _, ?_⟩
  · exact max_le hw2 (min_le_left _ _)
  · exact max_le hh2 (min_le_left _ _)

/-! ### Claim theorems -/
/-- Claim C1 (amended): permuting the iteration order of the compute phase
can change the committed post-tick states, because a prey captured earlier in
the phase is observed as dead by later computations and a predator's random
wander draws depend on processing position; order-independence does hold for
any tick in which no live agent is captured and no predator takes the random
wander branch — then every agent's result is a function only of the pre-tick
grid and the pre-tick states, and the committed states are identical for
every processing order and random stream. -/
theorem claim_C1_amended (boids : List Boid) (P : Params) (order : List ℕ)
    (Hidx : ∀ (j : ℕ) (b : Boid), boids[j]? = some b → b.idx = j)
    (Hperm : order.Perm (List.range boids.length))
    (Hnc : ∀ (i : ℕ) (b : Boid), boids[i]? = some b → b.alive = true →
      (get_change b i boids (populate_grid boids (P.visible_range * 1.1))
        (P.visible_range * 1.1) P Vec2.zero).alive = true)
    (Hnw : ∀ (i : ℕ) (b : Boid), boids[i]? = some b → b.alive = true →
      wanderTaken b i boids (populate_grid boids (P.visible_range * 1.1))
        (P.visible_range * 1.1) P = false)
    (rng rng' : ℕ → ℝ) :
    update_boids_with_order boids order P rng = update_boids boids P rng' :=
  update_order_irrelevant boids P order Hidx Hperm Hnc Hnw rng rng'

/-- Claim C2 (amended): a live prey with a live predator within the capture
radius (squared distance `< 2²`) in its 3×3 scan is captured during that tick
of `update_boids`: its `alive` flag becomes `false` and its colour is set to
black, but its committed position and velocity are NOT left unchanged — the
zero sentinel tuple is committed, so the position becomes the clamp of
`(0, 0)` (that is, `(0, 0)`), the velocity becomes the zero vector and the
speed becomes `0`. -/
theorem claim_C2_amended (boids : List Boid) (P : Params) (rng : ℕ → ℝ)
    (Hidx : ∀ (j : ℕ) (b : Boid), boids[j]? = some b → b.idx = j)
    (i ip : ℕ) (b pd : Boid)
    (hb : boids[i]? = some b) (halive : b.alive = true) (hprey : b.predator = false)
    (hpd : boids[ip]? = some pd) (hpdpred : pd.predator = true)
    (hpdalive : pd.alive = true) (hne : ip ≠ i)
    (hclose : Vec2.distSq b.position pd.position < 2 ^ 2)
    (hvr : 2 ≤ P.visible_range) (hw : 1 ≤ P.width) (hh : 1 ≤ P.height) :
    ∃ b', (update_boids boids P rng)[i]? = some b' ∧ b'.alive = false ∧
      b'.position = Vec2.zero ∧ b'.velocity = Vec2.zero ∧ b'.current_speed = 0 ∧
      b'.colour = ((0 : ℤ), (0 : ℤ), (0 : ℤ)) := by
  have hmb : (computePhase boids (prefixBefore (List.range boids.length) i)
      (populate_grid boids (P.visible_range * 1.1)) (P.visible_range * 1.1) P
      rng).bs[i]? = some b := by
    rw [mid_bs_getElem]
    exact hb
  have hrel : AliveRel boids (computePhase boids
      (prefixBefore (List.range boids.length) i)
      (populate_grid boids (P.visible_range * 1.1)) (P.visible_range * 1.1) P
      rng).bs := by
    rw [computePhase_def]
    exact foldl_phaseStep_aliveRel boids _ _ _ _ _ _ (aliveRel_refl boids)
  obtain ⟨a, hmidpd, -, hap⟩ := hrel.2 ip pd hpd
  have ha : a = pd.alive := hap hpdpred
  rw [ha, set_alive_self] at hmidpd
  have hvr0 : (0 : ℝ) < P.visible_range := lt_of_lt_of_le (by norm_num) hvr
  have hcspos : (0 : ℝ) < P.visible_range * 1.1 := by positivity
  obtain ⟨hax, hay⟩ := axis_close_of_distSq (by norm_num : (0 : ℝ) ≤ 2) hclose
  have haxcs : |pd.position.x - b.position.x| < P.visible_range * 1.1 :=
    lt_of_lt_of_le hax (by nlinarith)
  have haycs : |pd.position.y - b.position.y| < P.visible_range * 1.1 :=
    lt_of_lt_of_le hay (by nlinarith)
  have hscan : ip ∈ scanIndices (populate_grid boids (P.visible_range * 1.1))
      (cellOf b.position (P.visible_range * 1.1)) :=
    mem_scanIndices_of_close hcspos hpd haxcs haycs
  have hnone : scanFold b i P.visible_range P.protected_range
      (computePhase boids (prefixBefore (List.range boids.length) i)
        (populate_grid boids (P.visible_range * 1.1)) (P.visible_range * 1.1) P
        rng).bs
      (scanIndices (populate_grid boids (P.visible_range * 1.1))
        (cellOf b.position (P.visible_range * 1.1))) initAcc = none :=
    scanFold_eq_none_of_trigger
      ⟨ip, hscan, hne, pd, hmidpd, hpdalive, hpdpred, hprey, hclose⟩ initAcc
  have hres : resultAt boids (List.range boids.length) P rng i =
      ⟨b.idx, Vec2.zero, Vec2.zero, 0, false⟩ := by
    rw [resultAt_eq hmb]
    exact get_change_of_proposed_none
      ((get_change_proposed_none_iff _ _ _ _ _ _ _).mpr hnone)
  refine ⟨_, getElem_update_of_result Hidx hb halive hres, rfl, ?_, rfl, rfl, rfl⟩
  exact clampPos_zero hw hh

/-- Claim C3 (confirmed): for an agent that survives a tick of `update_boids`
with a non-degenerate proposed velocity, the committed `current_speed` and
the magnitude of the committed velocity lie within
`[min_speed, max_speed]`: a proposed speed below `min_speed` is scaled up to
exactly `min_speed`, one above `max_speed` is scaled down to exactly
`max_speed`, and a speed already in range leaves the velocity unchanged,
assuming `0 ≤ min_speed ≤ max_speed`. -/
theorem claim_C3 (boids : List Boid) (P : Params) (rng : ℕ → ℝ)
    (Hidx : ∀ (j : ℕ) (b : Boid), boids[j]? = some b → b.idx = j)
    (h0 : 0 ≤ P.min_speed) (hmm : P.min_speed ≤ P.max_speed)
    (i : ℕ) (b : Boid) (hb : boids[i]? = some b) (halive : b.alive = true)
    (v : Vec2) (hv : proposalAt boids (List.range boids.length) P rng i = some v)
    (hvpos : 0 < v.length) :
    ∃ b', (update_boids boids P rng)[i]? = some b' ∧ b'.alive = true ∧
      P.min_speed ≤ b'.current_speed ∧ b'.current_speed ≤ P.max_speed ∧
      b'.velocity.length = b'.current_speed ∧
      (v.length < P.min_speed → b'.current_speed = P.min_speed) ∧
      (P.max_speed < v.length → b'.current_speed = P.max_speed) ∧
      (P.min_speed ≤ v.length → v.length ≤ P.max_speed → b'.velocity = v) := by
  have hmb : (computePhase boids (prefixBefore (List.range boids.length) i)
      (populate_grid boids (P.visible_range * 1.1)) (P.visible_range * 1.1) P
      rng).bs[i]? = some b := by
    rw [mid_bs_getElem]
    exact hb
  have hpro := (proposalAt_eq hmb).symm.trans hv
  have hres : resultAt boids (List.range boids.length) P rng i =
      ⟨b.idx, b.position + (regulate P.min_speed P.max_speed v).1,
        (regulate P.min_speed P.max_speed v).1,
        (regulate P.min_speed P.max_speed v).2, b.alive⟩ := by
    rw [resultAt_eq hmb]
    exact get_change_of_proposed_some hpro
  obtain ⟨hlo, hhi, hlen⟩ := regulate_speed_bounds h0 hmm hvpos
  refine ⟨_, getElem_update_of_result Hidx hb halive hres, halive, hlo, hhi, hlen,
    fun h => regulate_speed_below hmm hvpos h,
    fun h => regulate_speed_above hmm hvpos h,
    fun h1 h2 => regulate_in_range hvpos h1 h2⟩

/-- Claim C4 (amended): after a tick of `update_boids` every committed
position lies within `[0, width-1] × [0, height-1]` (given in-bounds
pre-tick positions for the untouched dead slots); for every live agent whose
tick is NOT a capture, the committed position is the prior position plus the
committed velocity, hard-clamped per axis, and the committed velocity is the
final velocity with no corresponding clamp correction — but a captured
prey's committed position is the clamp of the zero sentinel, not prior
position plus velocity. -/
theorem claim_C4_amended (boids : List Boid) (P : Params) (rng : ℕ → ℝ)
    (Hidx : ∀ (j : ℕ) (b : Boid), boids[j]? = some b → b.idx = j)
    (hw : 1 ≤ P.width) (hh : 1 ≤ P.height)
    (hbounds : ∀ (i : ℕ) (b : Boid), boids[i]? = some b → inBounds P b.position) :
    (∀ (i : ℕ) (b' : Boid), (update_boids boids P rng)[i]? = some b' →
      inBounds P b'.position) ∧
    (∀ (i : ℕ) (b : Boid), boids[i]? = some b → b.alive = true →
      (resultAt boids (List.range boids.length) P rng i).alive = true →
      ∃ b', (update_boids boids P rng)[i]? = some b' ∧
        b'.position = clampPos P (b.position + b'.velocity) ∧
        b'.velocity =
          (resultAt boids (List.range boids.length) P rng i).final_velocity) := by
  constructor
  · intro i b' h
    have hilen : i < boids.length := by
      have := (List.getElem?_eq_some.mp h).1
      rw [update_boids_length] at this
      exact this
    have hb : boids[i]? = some boids[i] := List.getElem?_eq_getElem hilen
    rw [update_boids_getElem boids P rng Hidx i _ hb] at h
    have h2 : b' = _ := (Option.some.inj h).symm
    rw [h2]
    by_cases hc : boids[i].alive = true ∧ i ∈ List.range boids.length
    · rw [if_pos hc]
      exact clampPos_inBounds hw hh _
    · rw [if_neg hc]
      exact hbounds i boids[i] hb
  · intro i b hb halive hralive
    have hmb : (computePhase boids (prefixBefore (List.range boids.length) i)
        (populate_grid boids (P.visible_range * 1.1)) (P.visible_range * 1.1) P
        rng).bs[i]? = some b := by
      rw [mid_bs_getElem]
      exact hb
    have hralive2 := hralive
    rw [resultAt_eq hmb] at hralive2
    obtain ⟨nv, hpro⟩ := get_change_some_of_alive hralive2
    have hres : resultAt boids (List.range boids.length) P rng i =
        ⟨b.idx, b.position + (regulate P.min_speed P.max_speed nv).1,
          (regulate P.min_speed P.max_speed nv).1,
          (regulate P.min_speed P.max_speed nv).2, b.alive⟩ := by
      rw [resultAt_eq hmb]
      exact get_change_of_proposed_some hpro
    refine ⟨_, getElem_update_of_result Hidx hb halive hres, rfl, ?_⟩
    rw [hres]

/-- Claim C5 (confirmed): with cell size `visible_range × 1.1` and the grid
built by `populate_grid` via floor division of each coordinate, the 3×3 cell
scan of `get_change` visits every agent whose squared distance to the query
agent's position is below `visible_range²`; it may also visit agents beyond
that range, but never misses one within it. -/
theorem claim_C5 (boids : List Boid) (vr : ℝ) (hvr : 0 < vr) (j : ℕ) (b o : Boid)
    (hj : boids[j]? = some o)
    (hd : Vec2.distSq b.position o.position < vr ^ 2) :
    j ∈ scanIndices (populate_grid boids (vr * 1.1)) (cellOf b.position (vr * 1.1)) := by
  obtain ⟨hax, hay⟩ := axis_close_of_distSq (le_of_lt hvr) hd
  have hcs : (0 : ℝ) < vr * 1.1 := by positivity
  exact mem_scanIndices_of_close hcs hj
    (lt_of_lt_of_le hax (by nlinarith)) (lt_of_lt_of_le hay (by nlinarith))

/-- Claim C6 (amended): every per-predator flee weight divides by a squared
distance clamped below by `safe_distance²`, so for positive `safe_distance`
no divisor is zero; when the summed repulsion vector has zero length,
`calculate_flee_velocity` returns the ZERO vector — which, in the flee branch
of `get_change`, replaces the prey's velocity (the prior velocity is NOT
kept); when the sum is nonzero, the flee velocity is the normalized sum
scaled to magnitude `flee_speed` (called with `max_speed`). -/
theorem claim_C6_amended (boid : Boid) (predators : List Boid) (fs sd : ℝ)
    (hsd : 0 < sd) :
    (∀ p ∈ predators, sd ^ 2 ≤ clampedDistSq boid p sd ∧
      0 < clampedDistSq boid p sd) ∧
    ((totalRepulsion boid predators sd).length = 0 →
      calculate_flee_velocity boid predators fs sd = Vec2.zero) ∧
    (predators ≠ [] → 0 < (totalRepulsion boid predators sd).length → 0 ≤ fs →
      calculate_flee_velocity boid predators fs sd =
        Vec2.mulScalar (totalRepulsion boid predators sd).normalize fs ∧
      (calculate_flee_velocity boid predators fs sd).length = fs) ∧
    (∀ (P : Params) (acc : ScanAcc), acc.nearby_predators ≠ [] →
      preyRules boid P acc =
        calculate_flee_velocity boid acc.nearby_predators P.max_speed 1) := by
  refine ⟨?_, ?_, ?_, ?_⟩
  · intro p _
    exact ⟨clampedDistSq_ge, clampedDistSq_pos hsd⟩
  · exact calculate_flee_velocity_of_zero
  · intro hne hpos hfs
    refine ⟨calculate_flee_velocity_of_pos hne hpos, ?_⟩
    rw [calculate_flee_velocity_of_pos hne hpos]
    exact length_normalize_mulScalar hpos hfs
  · intro P acc hne
    unfold preyRules
    rw [if_pos hne]

/-- Claim C7 (amended): when an agent's proposed velocity after all forces
has zero magnitude, the regulator of `get_change` assigns the FIXED velocity
`(min_speed, 0)` — magnitude `min_speed` at angle 0°, not 45° and not
random — and the committed `current_speed` equals `min_speed`. -/
theorem claim_C7_amended (boids : List Boid) (P : Params) (rng : ℕ → ℝ)
    (Hidx : ∀ (j : ℕ) (b : Boid), boids[j]? = some b → b.idx = j)
    (h0 : 0 < P.min_speed)
    (i : ℕ) (b : Boid) (hb : boids[i]? = some b) (halive : b.alive = true)
    (v : Vec2) (hv : proposalAt boids (List.range boids.length) P rng i = some v)
    (hv0 : v.length = 0) :
    ∃ b', (update_boids boids P rng)[i]? = some b' ∧ b'.alive = true ∧
      b'.velocity = ⟨P.min_speed, 0⟩ ∧ b'.current_speed = P.min_speed ∧
      b'.velocity.length = P.min_speed := by
  have hmb : (computePhase boids (prefixBefore (List.range boids.length) i)
      (populate_grid boids (P.visible_range * 1.1)) (P.visible_range * 1.1) P
      rng).bs[i]? = some b := by
    rw [mid_bs_getElem]
    exact hb
  have hpro := (proposalAt_eq hmb).symm.trans hv
  have hreg : regulate P.min_speed P.max_speed v = (⟨P.min_speed, 0⟩, P.min_speed) :=
    regulate_zero_def (by
      intro h
      rw [hv0] at h
      exact lt_irrefl 0 h)
  have hres : resultAt boids (List.range boids.length) P rng i =
      ⟨b.idx, b.position + (⟨P.min_speed, 0⟩ : Vec2), ⟨P.min_speed, 0⟩,
        P.min_speed, b.alive⟩ := by
    rw [resultAt_eq hmb, get_change_of_proposed_some hpro, hreg]
  refine ⟨_, getElem_update_of_result Hidx hb halive hres, halive, rfl, rfl, ?_⟩
  exact Vec2.length_mk_eq (le_of_lt h0) (by ring)

/-- Claim C8 (confirmed): once an agent's `alive` flag is false at the start
of a tick, every subsequent tick of `update_boids` computes no result tuple
for it and leaves its entire committed state (position, velocity,
current_speed, and all other fields) exactly as last committed. -/
theorem claim_C8 (boids : List Boid) (P : Params) (rngs : ℕ → ℕ → ℝ)
    (Hidx : ∀ (j : ℕ) (b : Boid), boids[j]? = some b → b.idx = j)
    (i : ℕ) (b : Boid) (hb : boids[i]? = some b) (hdead : b.alive = false) :
    ∀ k : ℕ, (runTicks boids P rngs k)[i]? = some b ∧
      ∀ st ∈ (computePhase (runTicks boids P rngs k)
          (List.range (runTicks boids P rngs k).length)
          (populate_grid (runTicks boids P rngs k) (P.visible_range * 1.1))
          (P.visible_range * 1.1) P (rngs k)).states, st.idx ≠ i := by
  have main : ∀ k : ℕ, (runTicks boids P rngs k)[i]? = some b ∧
      (∀ (j : ℕ) (b' : Boid), (runTicks boids P rngs k)[j]? = some b' →
        b'.idx = j) := by
    intro k
    induction k with
    | zero => exact ⟨hb, Hidx⟩
    | succ m ih =>
      obtain ⟨ih1, ih2⟩ := ih
      exact ⟨update_frozen_of_dead ih2 ih1 hdead,
        update_idx_preserved _ _ _ ih2⟩
  intro k
  exact ⟨(main k).1,
    computePhase_states_idx_ne_dead _ _ _ _ _ _ (main k).2 (main k).1 hdead⟩

/-- Claim C9 (confirmed): boundary containment in `get_change` applies only
when `turn_factor > 0` and independently per axis via an if/elif pair: a
coordinate within `margin` of the low edge gets `turn_factor` added to that
velocity component; otherwise, within `margin` of the high edge it gets
`turn_factor` subtracted; at most one of the two opposing corrections is
applied per axis in a tick, so a corner agent (or an agent satisfying both
edge tests at once) never has the two corrections cancel. -/
theorem claim_C9 (P : Params) (pos v : Vec2) :
    (P.turn_factor ≤ 0 → applyTurn P pos v = v) ∧
    (0 < P.turn_factor →
      (pos.y < (P.margin : ℝ) → (applyTurn P pos v).y = v.y + P.turn_factor) ∧
      (¬ pos.y < (P.margin : ℝ) → pos.y > ((P.height - P.margin : ℤ) : ℝ) →
        (applyTurn P pos v).y = v.y - P.turn_factor) ∧
      (¬ pos.y < (P.margin : ℝ) → ¬ pos.y > ((P.height - P.margin : ℤ) : ℝ) →
        (applyTurn P pos v).y = v.y) ∧
      (pos.x < (P.margin : ℝ) → (applyTurn P pos v).x = v.x + P.turn_factor) ∧
      (¬ pos.x < (P.margin : ℝ) → pos.x > ((P.width - P.margin : ℤ) : ℝ) →
        (applyTurn P pos v).x = v.x - P.turn_factor) ∧
      (¬ pos.x < (P.margin : ℝ) → ¬ pos.x > ((P.width - P.margin : ℤ) : ℝ) →
        (applyTurn P pos v).x = v.x) ∧
      (pos.y < (P.margin : ℝ) → pos.y > ((P.height - P.margin : ℤ) : ℝ) →
        (applyTurn P pos v).y = v.y + P.turn_factor ∧ (applyTurn P pos v).y ≠ v.y) ∧
      (pos.x < (P.margin : ℝ) → pos.x > ((P.width - P.margin : ℤ) : ℝ) →
        (applyTurn P pos v).x = v.x + P.turn_factor ∧
        (applyTurn P pos v).x ≠ v.x)) := by
  constructor
  · intro htf
    unfold applyTurn
    rw [if_neg (not_lt.mpr htf)]
  · intro htf
    unfold applyTurn
    rw [if_pos htf]
    dsimp only
    refine ⟨?_, ?_, ?_, ?_, ?_, ?_, ?_, ?_⟩
    · intro h1
      rw [if_pos h1]
    · intro h1 h2
      rw [if_neg h1, if_pos h2]
    · intro h1 h2
      rw [if_neg h1, if_neg h2]
    · intro h1
      rw [if_pos h1]
    · intro h1 h2
      rw [if_neg h1, if_pos h2]
    · intro h1 h2
      rw [if_neg h1, if_neg h2]
    · intro h1 h2
      rw [if_pos h1]
      exact ⟨rfl, by intro h; linarith⟩
    · intro h1 h2
      rw [if_pos h1]
      exact ⟨rfl, by intro h; linarith⟩

/-- Claim C10 (confirmed): one tick of `update_boids` never modifies any
boid's `idx` or `predator` field, and modifies the `colour` field only for a
boid that dies during that tick (setting it to black); a boid that survives
the tick keeps its colour. -/
theorem claim_C10 (boids : List Boid) (P : Params) (rng : ℕ → ℝ)
    (Hidx : ∀ (j : ℕ) (b : Boid), boids[j]? = some b → b.idx = j) :
    ∀ (i : ℕ) (b b' : Boid), boids[i]? = some b →
      (update_boids boids P rng)[i]? = some b' →
      b'.idx = b.idx ∧ b'.predator = b.predator ∧
      (b'.colour ≠ b.colour →
        b.alive = true ∧ b'.alive = false ∧
        b'.colour = ((0 : ℤ), (0 : ℤ), (0 : ℤ))) := by
  intro i b b' hb h
  rw [update_boids_getElem boids P rng Hidx i b hb] at h
  have h2 : b' = _ := (Option.some.inj h).symm
  by_cases hc : b.alive = true ∧ i ∈ List.range boids.length
  · rw [if_pos hc] at h2
    rw [h2]
    refine ⟨rfl, rfl, ?_⟩
    intro hcol
    by_cases hra : (resultAt boids (List.range boids.length) P rng i).alive = false
    · exact ⟨hc.1, hra, if_pos hra⟩
    · exact absurd (if_neg hra) hcol
  · rw [if_neg hc] at h2
    rw [h2]
    exact ⟨rfl, rfl, fun hcol => absurd rfl hcol⟩

theorem floor_div_eq {x c : ℝ} {n : ℤ} (hc : 0 < c) (h1 : (n : ℝ) * c ≤ x)
    (h2 : x < ((n : ℝ) + 1) * c) : ⌊x / c⌋ = n := by
  rw [Int.floor_eq_iff]
  constructor
  · rw [le_div_iff₀ hc]
    exact h1
  · rw [div_lt_iff₀ hc]
    exact h2

theorem cellOf_eq {p : Vec2} {cs : ℝ} {m n : ℤ} (hc : 0 < cs)
    (hx1 : (m : ℝ) * cs ≤ p.x) (hx2 : p.x < ((m : ℝ) + 1) * cs)
    (hy1 : (n : ℝ) * cs ≤ p.y) (hy2 : p.y < ((n : ℝ) + 1) * cs) :
    cellOf p cs = (m, n) := by
  unfold cellOf
  rw [floor_div_eq hc hx1 hx2, floor_div_eq hc hy1 hy2]

theorem idx_list1 {b0 : Boid} (h0 : b0.idx = 0) :
    ∀ (j : ℕ) (b : Boid), ([b0] : List Boid)[j]? = some b → b.idx = j := by
  intro j b h
  match j with
  | 0 =>
    rw [List.getElem?_cons_zero] at h
    rw [← Option.some.inj h, h0]
  | n + 1 =>
    rw [List.getElem?_cons_succ] at h
    exact absurd h (by simp)

theorem idx_list2 {b0 b1 : Boid} (h0 : b0.idx = 0) (h1 : b1.idx = 1) :
    ∀ (j : ℕ) (b : Boid), ([b0, b1] : List Boid)[j]? = some b → b.idx = j := by
  intro j b h
  match j with
  | 0 =>
    rw [List.getElem?_cons_zero] at h
    rw [← Option.some.inj h, h0]
  | 1 =>
    rw [List.getElem?_cons_succ, List.getElem?_cons_zero] at h
    rw [← Option.some.inj h, h1]
  | n + 2 =>
    rw [List.getElem?_cons_succ, List.getElem?_cons_succ] at h
    exact absurd h (by simp)

theorem idx_list3 {b0 b1 b2 : Boid} (h0 : b0.idx = 0) (h1 : b1.idx = 1)
    (h2 : b2.idx = 2) :
    ∀ (j : ℕ) (b : Boid), ([b0, b1, b2] : List Boid)[j]? = some b → b.idx = j := by
  intro j b h
  match j with
  | 0 =>
    rw [List.getElem?_cons_zero] at h
    rw [← Option.some.inj h, h0]
  | 1 =>
    rw [List.getElem?_cons_succ, List.getElem?_cons_zero] at h
    rw [← Option.some.inj h, h1]
  | 2 =>
    rw [List.getElem?_cons_succ, List.getElem?_cons_succ,
      List.getElem?_cons_zero] at h
    rw [← Option.some.inj h, h2]
  | n + 3 =>
    rw [List.getElem?_cons_succ, List.getElem?_cons_succ,
      List.getElem?_cons_succ] at h
    exact absurd h (by simp)

theorem B2_idx : ∀ (j : ℕ) (b : Boid), B2[j]? = some b → b.idx = j :=
  idx_list2 rfl rfl

theorem B2_prey_result : resultAt B2 (List.range B2.length) P2 rng0 0 =
    ⟨0, Vec2.zero, Vec2.zero, 0, false⟩ := by
  have hmb : (computePhase B2 (prefixBefore (List.range B2.length) 0)
      (populate_grid B2 (P2.visible_range * 1.1)) (P2.visible_range * 1.1) P2
      rng0).bs[0]? = some prey0 := by
    rw [mid_bs_getElem]
    rfl
  rw [resultAt_eq hmb]
  have hprop : ∀ w : Vec2, get_change_proposed prey0 0
      (computePhase B2 (prefixBefore (List.range B2.length) 0)
        (populate_grid B2 (P2.visible_range * 1.1)) (P2.visible_range * 1.1) P2
        rng0).bs
      (populate_grid B2 (P2.visible_range * 1.1)) (P2.visible_range * 1.1) P2
      w = none := by
    intro w
    rw [get_change_proposed_none_iff]
    apply scanFold_eq_none_of_trigger
    refine ⟨1, ?_, ?_⟩
    · exact mem_scanIndices_of_close (by norm_num [P2])
        (show B2[1]? = some pred1 from rfl)
        (by norm_num [prey0, pred1, P2]) (by norm_num [prey0, pred1, P2])
    · refine ⟨by decide, pred1, rfl, rfl, rfl, rfl, ?_⟩
      norm_num [prey0, pred1, Vec2.distSq]
  exact get_change_of_proposed_none (hprop _)

/-- Counterexample to claim C2 as stated: for the coincident predator/prey
scenario the prey is captured, but its committed position and velocity are
NOT unchanged from their pre-tick values — both are zeroed by the sentinel
commit. -/
theorem claim_C2_counterexample :
    ∃ b', (update_boids B2 P2 rng0)[0]? = some b' ∧ b'.alive = false ∧
      b'.position ≠ prey0.position ∧ b'.velocity ≠ prey0.velocity := by
  refine ⟨_, getElem_update_of_result B2_idx rfl rfl B2_prey_result, rfl, ?_, ?_⟩
  · show clampPos P2 Vec2.zero ≠ prey0.position
    rw [clampPos_zero (by decide) (by decide)]
    intro he
    have hx := congrArg Vec2.x he
    norm_num [Vec2.zero, prey0] at hx
  · show Vec2.zero ≠ prey0.velocity
    intro he
    have hx := congrArg Vec2.x he
    norm_num [Vec2.zero, prey0] at hx

/-- Witness for claim C2 (amended) at the concrete coincident scenario. -/
theorem claim_C2_witness :
    B2[0]? = some prey0 ∧ prey0.alive = true ∧ prey0.predator = false ∧
    B2[1]? = some pred1 ∧ pred1.predator = true ∧ pred1.alive = true ∧
    Vec2.distSq prey0.position pred1.position < 2 ^ 2 ∧
    (2 : ℝ) ≤ P2.visible_range ∧
    (∃ b', (update_boids B2 P2 rng0)[0]? = some b' ∧ b'.alive = false ∧
      b'.position = Vec2.zero ∧ b'.velocity = Vec2.zero ∧ b'.current_speed = 0 ∧
      b'.colour = ((0 : ℤ), (0 : ℤ), (0 : ℤ))) :=
  ⟨rfl, rfl, rfl, rfl, rfl, rfl, by norm_num [prey0, pred1, Vec2.distSq],
    by norm_num [P2],
    claim_C2_amended B2 P2 rng0 B2_idx 0 1 prey0 pred1 rfl rfl rfl rfl rfl rfl
      (by decide) (by norm_num [prey0, pred1, Vec2.distSq]) (by norm_num [P2])
      (by decide) (by decide)⟩

/-- Counterexample to claim C4 as stated: the captured prey's committed
position is the clamped zero sentinel, not its prior position plus its
committed velocity. -/
theorem claim_C4_counterexample :
    ∃ b', (update_boids B2 P2 rng0)[0]? = some b' ∧
      b'.position ≠ clampPos P2 (prey0.position + b'.velocity) := by
  refine ⟨_, getElem_update_of_result B2_idx rfl rfl B2_prey_result, ?_⟩
  show clampPos P2 Vec2.zero ≠ clampPos P2 (prey0.position + Vec2.zero)
  rw [clampPos_zero (by decide) (by decide)]
  have hr : clampPos P2 (prey0.position + Vec2.zero) = ⟨10, 10⟩ := by
    unfold clampPos
    rw [Vec2.eq_iff]
    constructor
    · show max 0 (min ((P2.width - 1 : ℤ) : ℝ) (prey0.position + Vec2.zero).x) = 10
      norm_num [prey0, Vec2.zero, P2]
    · show max 0 (min ((P2.height - 1 : ℤ) : ℝ) (prey0.position + Vec2.zero).y) = 10
      norm_num [prey0, Vec2.zero, P2]
  rw [hr]
  intro he
  have hx := congrArg Vec2.x he
  norm_num [Vec2.zero] at hx

/-- Witness for claim C4 (amended) at the concrete capture scenario. -/
theorem claim_C4_witness :
    (1 : ℤ) ≤ P2.width ∧ (1 : ℤ) ≤ P2.height ∧
    (∀ (i : ℕ) (b : Boid), B2[i]? = some b → inBounds P2 b.position) ∧
    ((∀ (i : ℕ) (b' : Boid), (update_boids B2 P2 rng0)[i]? = some b' →
        inBounds P2 b'.position) ∧
      (∀ (i : ℕ) (b : Boid), B2[i]? = some b → b.alive = true →
        (resultAt B2 (List.range B2.length) P2 rng0 i).alive = true →
        ∃ b', (update_boids B2 P2 rng0)[i]? = some b' ∧
          b'.position = clampPos P2 (b.position + b'.velocity) ∧
          b'.velocity =
            (resultAt B2 (List.range B2.length) P2 rng0 i).final_velocity)) := by
  have hbounds : ∀ (i : ℕ) (b : Boid), B2[i]? = some b → inBounds P2 b.position := by
    intro i b h
    unfold B2 at h
    match i with
    | 0 =>
      rw [List.getElem?_cons_zero] at h
      rw [← Option.some.inj h]
      refine ⟨?_, ?_, ?_, ?_⟩ <;> norm_num [prey0, P2, inBounds]
    | 1 =>
      rw [List.getElem?_cons_succ, List.getElem?_cons_zero] at h
      rw [← Option.some.inj h]
      refine ⟨?_, ?_, ?_, ?_⟩ <;> norm_num [pred1, P2, inBounds]
    | n + 2 =>
      rw [List.getElem?_cons_succ, List.getElem?_cons_succ] at h
      exact absurd h (by simp)
  exact ⟨by decide, by decide, hbounds,
    claim_C4_amended B2 P2 rng0 B2_idx (by decide) (by decide) hbounds⟩

/-- Witness for claim C10 at the concrete capture scenario. -/
theorem claim_C10_witness :
    (∀ (j : ℕ) (b : Boid), B2[j]? = some b → b.idx = j) ∧
    (∀ (i : ℕ) (b b' : Boid), B2[i]? = some b →
      (update_boids B2 P2 rng0)[i]? = some b' →
      b'.idx = b.idx ∧ b'.predator = b.predator ∧
      (b'.colour ≠ b.colour →
        b.alive = true ∧ b'.alive = false ∧
        b'.colour = ((0 : ℤ), (0 : ℤ), (0 : ℤ)))) :=
  ⟨B2_idx, claim_C10 B2 P2 rng0 B2_idx⟩

theorem B3_idx : ∀ (j : ℕ) (b : Boid), B3[j]? = some b → b.idx = j :=
  idx_list1 rfl

theorem B4_idx : ∀ (j : ℕ) (b : Boid), B4[j]? = some b → b.idx = j :=
  idx_list1 rfl

theorem scanIndices_def9 (grid : ℤ × ℤ → List ℕ) (c : ℤ × ℤ) :
    scanIndices grid c =
      grid (c.1 + -1, c.2 + -1) ++ (grid (c.1 + -1, c.2 + 0) ++
      (grid (c.1 + -1, c.2 + 1) ++ (grid (c.1 + 0, c.2 + -1) ++
      (grid (c.1 + 0, c.2 + 0) ++ (grid (c.1 + 0, c.2 + 1) ++
      (grid (c.1 + 1, c.2 + -1) ++ (grid (c.1 + 1, c.2 + 0) ++
      (grid (c.1 + 1, c.2 + 1) ++ [])))))))) := rfl

theorem populate_grid_single (b0 : Boid) (cs : ℝ) (c : ℤ × ℤ) :
    populate_grid [b0] cs c = if cellOf b0.position cs = c then [0] else [] := by
  unfold populate_grid
  have h1 : List.range ([b0] : List Boid).length = [0] := rfl
  rw [h1, List.filter_cons, List.filter_nil]
  by_cases h2 : cellOf b0.position cs = c <;> simp [h2]

theorem populate_grid_pair (b0 b1 : Boid) (cs : ℝ) (c : ℤ × ℤ) :
    populate_grid [b0, b1] cs c =
      (if cellOf b0.position cs = c then [0] else []) ++
      (if cellOf b1.position cs = c then [1] else []) := by
  unfold populate_grid
  have h1 : List.range ([b0, b1] : List Boid).length = [0, 1] := rfl
  rw [h1, List.filter_cons, List.filter_cons, List.filter_nil]
  by_cases h2 : cellOf b0.position cs = c <;> by_cases h3 : cellOf b1.position cs = c <;>
    simp [h2, h3]

theorem populate_grid_triple (b0 b1 b2 : Boid) (cs : ℝ) (c : ℤ × ℤ) :
    populate_grid [b0, b1, b2] cs c =
      (if cellOf b0.position cs = c then [0] else []) ++
      ((if cellOf b1.position cs = c then [1] else []) ++
        (if cellOf b2.position cs = c then [2] else [])) := by
  unfold populate_grid
  have h1 : List.range ([b0, b1, b2] : List Boid).length = [0, 1, 2] := rfl
  rw [h1, List.filter_cons, List.filter_cons, List.filter_cons, List.filter_nil]
  by_cases h2 : cellOf b0.position cs = c <;> by_cases h3 : cellOf b1.position cs = c <;>
    by_cases h4 : cellOf b2.position cs = c <;> simp [h2, h3, h4]

theorem scanIndices_single (b0 : Boid) (cs : ℝ) :
    scanIndices (populate_grid [b0] cs) (cellOf b0.position cs) = [0] := by
  rw [scanIndices_def9]
  simp only [populate_grid_single]
  have hc : ∀ dx dy : ℤ,
      (cellOf b0.position cs =
        ((cellOf b0.position cs).1 + dx, (cellOf b0.position cs).2 + dy)) ↔
      (dx = 0 ∧ dy = 0) := by
    intro dx dy
    constructor
    · intro h
      have h1 := congrArg Prod.fst h
      have h2 := congrArg Prod.snd h
      simp only [Prod.fst, Prod.snd] at h1 h2
      omega
    · rintro ⟨rfl, rfl⟩
      simp
  simp only [hc]
  norm_num

theorem scanFold_self_single (b0 : Boid) (vr pr : ℝ) (bs : List Boid) :
    scanFold b0 0 vr pr bs [0] initAcc = some initAcc := by
  simp [scanFold, scanStep]

theorem single_prey_proposed (b0 : Boid) (P : Params) (hprey : b0.predator = false)
    (htf : ¬ P.turn_factor > 0) (w : Vec2) :
    get_change_proposed b0 0 [b0] (populate_grid [b0] (P.visible_range * 1.1))
      (P.visible_range * 1.1) P w = some b0.velocity := by
  unfold get_change_proposed
  rw [scanIndices_single, scanFold_self_single]
  show some (applyTurn P b0.position
      (if b0.predator = false then preyRules b0 P initAcc
       else predatorRules b0 P initAcc w)) = some b0.velocity
  rw [if_pos hprey]
  have hrules : preyRules b0 P initAcc = b0.velocity := by
    unfold preyRules
    rw [if_neg (by simp [initAcc]), if_neg (by norm_num [initAcc])]
  rw [hrules]
  have hturn : applyTurn P b0.position b0.velocity = b0.velocity := by
    unfold applyTurn
    rw [if_neg htf]
  rw [hturn]

theorem B3_proposal : proposalAt B3 (List.range B3.length) P2 rng0 0 =
    some ⟨3, 4⟩ := by
  have hmb : (computePhase B3 (prefixBefore (List.range B3.length) 0)
      (populate_grid B3 (P2.visible_range * 1.1)) (P2.visible_range * 1.1) P2
      rng0).bs[0]? = some prey3 := by
    rw [mid_bs_getElem]
    rfl
  rw [proposalAt_eq hmb]
  exact single_prey_proposed prey3 P2 rfl (by norm_num [P2]) _

theorem B4_proposal : proposalAt B4 (List.range B4.length) P2 rng0 0 =
    some ⟨0, 0⟩ := by
  have hmb : (computePhase B4 (prefixBefore (List.range B4.length) 0)
      (populate_grid B4 (P2.visible_range * 1.1)) (P2.visible_range * 1.1) P2
      rng0).bs[0]? = some prey4 := by
    rw [mid_bs_getElem]
    rfl
  rw [proposalAt_eq hmb]
  exact single_prey_proposed prey4 P2 rfl (by norm_num [P2]) _

/-- Witness for claim C3 at the lone fast prey: proposed speed 5 exceeds
`max_speed = 2` and is clamped down to exactly 2. -/
theorem claim_C3_witness :
    (0 : ℝ) ≤ P2.min_speed ∧ P2.min_speed ≤ P2.max_speed ∧ prey3.alive = true ∧
    proposalAt B3 (List.range B3.length) P2 rng0 0 = some ⟨3, 4⟩ ∧
    0 < (⟨3, 4⟩ : Vec2).length ∧
    (∃ b', (update_boids B3 P2 rng0)[0]? = some b' ∧ b'.alive = true ∧
      P2.min_speed ≤ b'.current_speed ∧ b'.current_speed ≤ P2.max_speed ∧
      b'.velocity.length = b'.current_speed ∧
      ((⟨3, 4⟩ : Vec2).length < P2.min_speed → b'.current_speed = P2.min_speed) ∧
      (P2.max_speed < (⟨3, 4⟩ : Vec2).length → b'.current_speed = P2.max_speed) ∧
      (P2.min_speed ≤ (⟨3, 4⟩ : Vec2).length → (⟨3, 4⟩ : Vec2).length ≤ P2.max_speed →
        b'.velocity = ⟨3, 4⟩)) := by
  have hlen : (⟨3, 4⟩ : Vec2).length = 5 :=
    Vec2.length_mk_eq (by norm_num) (by norm_num)
  exact ⟨by norm_num [P2], by norm_num [P2], rfl, B3_proposal,
    by rw [hlen]; norm_num,
    claim_C3 B3 P2 rng0 B3_idx (by norm_num [P2]) (by norm_num [P2]) 0 prey3 rfl rfl
      ⟨3, 4⟩ B3_proposal (by rw [hlen]; norm_num)⟩

/-- Witness for claim C1 (amended) at a capture-free, wander-free tick: a
single prey, processed in the only possible order. -/
theorem claim_C1_amended_witness :
    ([0] : List ℕ).Perm (List.range B3.length) ∧
    update_boids_with_order B3 [0] P2 rng0 = update_boids B3 P2 rng0 := by
  have hperm : ([0] : List ℕ).Perm (List.range B3.length) := by
    have h : List.range B3.length = [0] := rfl
    rw [h]
  refine ⟨hperm, claim_C1_amended B3 P2 [0] B3_idx hperm ?_ ?_ rng0 rng0⟩
  · intro i b h halive
    match i with
    | 0 =>
      have h2 : some prey3 = some b := h
      rw [← Option.some.inj h2]
      show (get_change prey3 0 [prey3]
        (populate_grid [prey3] (P2.visible_range * 1.1)) (P2.visible_range * 1.1)
        P2 Vec2.zero).alive = true
      rw [get_change_of_proposed_some (single_prey_proposed prey3 P2 rfl
        (by norm_num [P2]) Vec2.zero)]
      rfl
    | n + 1 =>
      have h2 : (none : Option Boid) = some b := h
      exact absurd h2 (by simp)
  · intro i b h halive
    match i with
    | 0 =>
      have h2 : some prey3 = some b := h
      rw [← Option.some.inj h2]
      rfl
    | n + 1 =>
      have h2 : (none : Option Boid) = some b := h
      exact absurd h2 (by simp)

theorem B4_result : resultAt B4 (List.range B4.length) P2 rng0 0 =
    ⟨0, prey4.position + ⟨0.5, 0⟩, ⟨0.5, 0⟩, 0.5, true⟩ := by
  have hmb : (computePhase B4 (prefixBefore (List.range B4.length) 0)
      (populate_grid B4 (P2.visible_range * 1.1)) (P2.visible_range * 1.1) P2
      rng0).bs[0]? = some prey4 := by
    rw [mid_bs_getElem]
    rfl
  rw [resultAt_eq hmb]
  show get_change prey4 0 [prey4] (populate_grid [prey4] (P2.visible_range * 1.1))
    (P2.visible_range * 1.1) P2 ⟨rng0 0, rng0 (0 + 1)⟩ =
    ⟨0, prey4.position + ⟨0.5, 0⟩, ⟨0.5, 0⟩, 0.5, true⟩
  rw [get_change_of_proposed_some (single_prey_proposed prey4 P2 rfl
    (by norm_num [P2]) ⟨rng0 0, rng0 (0 + 1)⟩)]
  have hlen : (prey4.velocity).length = 0 :=
    Vec2.length_mk_eq le_rfl (by norm_num)
  have hreg : regulate P2.min_speed P2.max_speed prey4.velocity =
      ((⟨0.5, 0⟩ : Vec2), (0.5 : ℝ)) :=
    regulate_zero_def (by
      intro hlt
      rw [hlen] at hlt
      exact lt_irrefl 0 hlt)
  rw [hreg]
  rfl

/-- Counterexample to claim C7 as stated: the zero-velocity nudge commits the
fixed velocity `(min_speed, 0)`, whose angle is 0°, not 45° (the x and y
components differ), and it is not random. -/
theorem claim_C7_counterexample :
    ∃ b', (update_boids B4 P2 rng0)[0]? = some b' ∧
      b'.velocity = ⟨0.5, 0⟩ ∧ b'.velocity.y ≠ b'.velocity.x ∧
      b'.current_speed = P2.min_speed := by
  refine ⟨_, getElem_update_of_result B4_idx rfl rfl B4_result, rfl, ?_, rfl⟩
  show (⟨(0.5 : ℝ), 0⟩ : Vec2).y ≠ (⟨(0.5 : ℝ), 0⟩ : Vec2).x
  norm_num

/-- Witness for claim C7 (amended) at the lone resting prey. -/
theorem claim_C7_witness :
    0 < P2.min_speed ∧
    proposalAt B4 (List.range B4.length) P2 rng0 0 = some ⟨0, 0⟩ ∧
    (⟨0, 0⟩ : Vec2).length = 0 ∧
    (∃ b', (update_boids B4 P2 rng0)[0]? = some b' ∧ b'.alive = true ∧
      b'.velocity = ⟨P2.min_speed, 0⟩ ∧ b'.current_speed = P2.min_speed ∧
      b'.velocity.length = P2.min_speed) :=
  ⟨by norm_num [P2], B4_proposal, Vec2.length_mk_eq le_rfl (by norm_num),
    claim_C7_amended B4 P2 rng0 B4_idx (by norm_num [P2]) 0 prey4 rfl rfl ⟨0, 0⟩
      B4_proposal (Vec2.length_mk_eq le_rfl (by norm_num))⟩

/-- Witness for claim C5: two agents 2 apart straddling a cell boundary; the
3×3 scan around the first still visits the second. -/
theorem claim_C5_witness :
    (0 : ℝ) < 20 ∧ B6[1]? = some bo6 ∧
    Vec2.distSq bq6.position bo6.position < 20 ^ 2 ∧
    1 ∈ scanIndices (populate_grid B6 (20 * 1.1)) (cellOf bq6.position (20 * 1.1)) :=
  ⟨by norm_num, rfl, by norm_num [bq6, bo6, Vec2.distSq],
    claim_C5 B6 20 (by norm_num) 1 bq6 bo6 rfl
      (by norm_num [bq6, bo6, Vec2.distSq])⟩

/-- Witness for claim C6 (amended) at a one-predator flee computation. -/
theorem claim_C6_witness :
    (0 : ℝ) < 1 ∧
    ((∀ p ∈ [pred1], (1 : ℝ) ^ 2 ≤ clampedDistSq prey0 p 1 ∧
        0 < clampedDistSq prey0 p 1) ∧
      ((totalRepulsion prey0 [pred1] 1).length = 0 →
        calculate_flee_velocity prey0 [pred1] 2 1 = Vec2.zero) ∧
      ([pred1] ≠ ([] : List Boid) → 0 < (totalRepulsion prey0 [pred1] 1).length →
        (0 : ℝ) ≤ 2 →
        calculate_flee_velocity prey0 [pred1] 2 1 =
          Vec2.mulScalar (totalRepulsion prey0 [pred1] 1).normalize 2 ∧
        (calculate_flee_velocity prey0 [pred1] 2 1).length = 2) ∧
      (∀ (P : Params) (acc : ScanAcc), acc.nearby_predators ≠ [] →
        preyRules prey0 P acc =
          calculate_flee_velocity prey0 acc.nearby_predators P.max_speed 1)) :=
  ⟨by norm_num, claim_C6_amended prey0 [pred1] 2 1 (by norm_num)⟩

theorem B5_idx : ∀ (j : ℕ) (b : Boid), B5[j]? = some b → b.idx = j :=
  idx_list1 rfl

/-- Witness for claim C8: a dead boid stays frozen over all ticks. -/
theorem claim_C8_witness :
    B5[0]? = some deadb ∧ deadb.alive = false ∧
    (∀ k : ℕ, (runTicks B5 P2 (fun _ => rng0) k)[0]? = some deadb ∧
      ∀ st ∈ (computePhase (runTicks B5 P2 (fun _ => rng0) k)
          (List.range (runTicks B5 P2 (fun _ => rng0) k).length)
          (populate_grid (runTicks B5 P2 (fun _ => rng0) k)
            (P2.visible_range * 1.1))
          (P2.visible_range * 1.1) P2 ((fun _ => rng0) k)).states, st.idx ≠ 0) :=
  ⟨rfl, rfl, claim_C8 B5 P2 (fun _ => rng0) B5_idx 0 deadb rfl rfl⟩

/-- Witness for claim C9: an agent within the margin of the low x edge gets
exactly `turn_factor` added to its x velocity. -/
theorem claim_C9_witness :
    0 < P9.turn_factor ∧ (⟨5, 50⟩ : Vec2).x < (P9.margin : ℝ) ∧
    (applyTurn P9 ⟨5, 50⟩ ⟨1, 1⟩).x = (⟨1, 1⟩ : Vec2).x + P9.turn_factor := by
  refine ⟨by norm_num [P9], by norm_num [P9], ?_⟩
  exact ((claim_C9 P9 ⟨5, 50⟩ ⟨1, 1⟩).2 (by norm_num [P9])).2.2.2.1 (by norm_num [P9])

theorem B7_idx : ∀ (j : ℕ) (b : Boid), B7[j]? = some b → b.idx = j :=
  idx_list3 rfl rfl rfl

theorem B7_repulsion : totalRepulsion preyF [pdA, pdB] 1 = Vec2.zero := by
  unfold totalRepulsion clampedDistSq
  rw [List.foldl_cons, List.foldl_cons, List.foldl_nil]
  rw [Vec2.eq_iff]
  constructor <;>
    norm_num [preyF, pdA, pdB, Vec2.distSq, Vec2.zero, Vec2.divScalar, Vec2.sub,
      Vec2.add, Vec2.lengthSq]

theorem cell_B7_prey : cellOf preyF.position (P2.visible_range * 1.1) = (0, 0) := by
  apply cellOf_eq (by norm_num [P2]) <;> norm_num [preyF, P2]

theorem cell_B7_pdA : cellOf pdA.position (P2.visible_range * 1.1) = (0, 0) := by
  apply cellOf_eq (by norm_num [P2]) <;> norm_num [pdA, P2]

theorem cell_B7_pdB : cellOf pdB.position (P2.visible_range * 1.1) = (0, 0) := by
  apply cellOf_eq (by norm_num [P2]) <;> norm_num [pdB, P2]

theorem scan_B7 : scanIndices (populate_grid B7 (P2.visible_range * 1.1))
    (cellOf preyF.position (P2.visible_range * 1.1)) = [0, 1, 2] := by
  have hB7 : B7 = [preyF, pdA, pdB] := rfl
  rw [cell_B7_prey, scanIndices_def9, hB7]
  simp only [populate_grid_triple, cell_B7_prey, cell_B7_pdA, cell_B7_pdB]
  decide

theorem scanFold_B7 : scanFold preyF 0 P2.visible_range P2.protected_range B7 [0, 1, 2]
    initAcc = some ⟨Vec2.zero, Vec2.zero, Vec2.zero, 0, [pdA, pdB]⟩ := by
  have h1 : scanStep preyF 0 P2.visible_range P2.protected_range B7 initAcc 0 =
      some initAcc := by
    unfold scanStep
    rw [if_pos rfl]
  have hB1 : B7[1]? = some pdA := rfl
  have hB2 : B7[2]? = some pdB := rfl
  have h2 : scanStep preyF 0 P2.visible_range P2.protected_range B7 initAcc 1 =
      some ⟨Vec2.zero, Vec2.zero, Vec2.zero, 0, [pdA]⟩ := by
    unfold scanStep
    norm_num [hB1, pdA, preyF, Vec2.distSq, Vec2.lengthSq, initAcc, P2]
  have h3 : scanStep preyF 0 P2.visible_range P2.protected_range B7
      ⟨Vec2.zero, Vec2.zero, Vec2.zero, 0, [pdA]⟩ 2 =
      some ⟨Vec2.zero, Vec2.zero, Vec2.zero, 0, [pdA, pdB]⟩ := by
    unfold scanStep
    norm_num [hB2, pdB, preyF, Vec2.distSq, Vec2.lengthSq, P2]
  simp only [scanFold, h1, h2, h3]

theorem B7_proposed (w : Vec2) :
    get_change_proposed preyF 0 B7 (populate_grid B7 (P2.visible_range * 1.1))
      (P2.visible_range * 1.1) P2 w = some ⟨0, 0⟩ := by
  unfold get_change_proposed
  rw [scan_B7, scanFold_B7]
  show some (applyTurn P2 preyF.position
      (if preyF.predator = false
       then preyRules preyF P2 ⟨Vec2.zero, Vec2.zero, Vec2.zero, 0, [pdA, pdB]⟩
       else predatorRules preyF P2 ⟨Vec2.zero, Vec2.zero, Vec2.zero, 0, [pdA, pdB]⟩ w))
    = some ⟨0, 0⟩
  rw [if_pos (show preyF.predator = false from rfl)]
  have hflee : preyRules preyF P2 ⟨Vec2.zero, Vec2.zero, Vec2.zero, 0, [pdA, pdB]⟩ =
      Vec2.zero := by
    unfold preyRules
    rw [if_pos (by simp)]
    exact calculate_flee_velocity_of_zero
      (by rw [B7_repulsion]; exact Vec2.length_mk_eq le_rfl (by norm_num))
  rw [hflee]
  have hturn : applyTurn P2 preyF.position Vec2.zero = Vec2.zero := by
    unfold applyTurn
    rw [if_neg (by norm_num [P2])]
  rw [hturn]
  rfl

theorem B7_result : resultAt B7 (List.range B7.length) P2 rng0 0 =
    ⟨0, preyF.position + ⟨0.5, 0⟩, ⟨0.5, 0⟩, 0.5, true⟩ := by
  have hmb : (computePhase B7 (prefixBefore (List.range B7.length) 0)
      (populate_grid B7 (P2.visible_range * 1.1)) (P2.visible_range * 1.1) P2
      rng0).bs[0]? = some preyF := by
    rw [mid_bs_getElem]
    rfl
  rw [resultAt_eq hmb]
  show get_change preyF 0 B7 (populate_grid B7 (P2.visible_range * 1.1))
    (P2.visible_range * 1.1) P2 ⟨rng0 0, rng0 (0 + 1)⟩ =
    ⟨0, preyF.position + ⟨0.5, 0⟩, ⟨0.5, 0⟩, 0.5, true⟩
  rw [get_change_of_proposed_some (B7_proposed ⟨rng0 0, rng0 (0 + 1)⟩)]
  have hreg : regulate P2.min_speed P2.max_speed (⟨0, 0⟩ : Vec2) =
      ((⟨0.5, 0⟩ : Vec2), (0.5 : ℝ)) :=
    regulate_zero_def (by
      intro hlt
      rw [Vec2.length_mk_eq le_rfl (by norm_num : (0:ℝ)^2 + 0^2 = 0^2)] at hlt
      exact lt_irrefl 0 hlt)
  rw [hreg]
  rfl

/-- Counterexample to claim C6 as stated: with two symmetric predators the
summed repulsion is the zero vector, but the fleeing prey does NOT keep its
prior velocity — the zero flee vector replaces it and the degenerate nudge
commits `(min_speed, 0)` instead. -/
theorem claim_C6_counterexample :
    totalRepulsion preyF [pdA, pdB] 1 = Vec2.zero ∧
    ∃ b', (update_boids B7 P2 rng0)[0]? = some b' ∧ b'.velocity ≠ preyF.velocity := by
  refine ⟨B7_repulsion, _, getElem_update_of_result B7_idx rfl rfl B7_result, ?_⟩
  show (⟨(0.5 : ℝ), 0⟩ : Vec2) ≠ preyF.velocity
  intro he
  have hy := congrArg Vec2.y he
  norm_num [preyF] at hy

theorem B1_idx : ∀ (j : ℕ) (b : Boid), B1[j]? = some b → b.idx = j :=
  idx_list2 rfl rfl

theorem cell_B1_pred : cellOf predC.position (P2.visible_range * 1.1) = (0, 0) := by
  apply cellOf_eq (by norm_num [P2]) <;> norm_num [predC, P2]

theorem cell_B1_prey : cellOf preyC.position (P2.visible_range * 1.1) = (-1, 0) := by
  apply cellOf_eq (by norm_num [P2]) <;> norm_num [preyC, P2]

theorem scan_B1_pred : scanIndices (populate_grid B1 (P2.visible_range * 1.1))
    (cellOf predC.position (P2.visible_range * 1.1)) = [1, 0] := by
  have hB1 : B1 = [predC, preyC] := rfl
  rw [cell_B1_pred, scanIndices_def9, hB1]
  simp only [populate_grid_pair, cell_B1_pred, cell_B1_prey]
  decide

theorem scanFold_B1_pred : scanFold predC 0 P2.visible_range P2.protected_range B1
    [1, 0] initAcc = some ⟨⟨-1.5, 0⟩, Vec2.zero, Vec2.zero, 1, []⟩ := by
  have hg : B1[1]? = some preyC := rfl
  have h1 : scanStep predC 0 P2.visible_range P2.protected_range B1 initAcc 1 =
      some ⟨⟨-1.5, 0⟩, Vec2.zero, Vec2.zero, 1, []⟩ := by
    unfold scanStep
    norm_num [hg, predC, preyC, Vec2.distSq, Vec2.lengthSq, initAcc, P2, Vec2.zero]
  have h2 : scanStep predC 0 P2.visible_range P2.protected_range B1
      ⟨⟨-1.5, 0⟩, Vec2.zero, Vec2.zero, 1, []⟩ 0 =
      some ⟨⟨-1.5, 0⟩, Vec2.zero, Vec2.zero, 1, []⟩ := by
    unfold scanStep
    rw [if_pos rfl]
  simp only [scanFold, h1, h2]

theorem predatorRules_eval {self : Boid} {P : Params} {acc : ScanAcc} {c : Vec2}
    {L : ℝ} (hcount : 0 < acc.neighboring_prey_count)
    (hchase : Vec2.divScalar acc.position_avg (acc.neighboring_prey_count : ℝ) -
      self.position = c)
    (hlen : c.length = L) (hL : 0 < L) (w : Vec2) :
    predatorRules self P acc w =
      self.velocity + Vec2.mulScalar (Vec2.divScalar c L) (P.max_speed * 0.5) := by
  unfold predatorRules
  rw [if_pos hcount]
  show (if (Vec2.divScalar acc.position_avg (acc.neighboring_prey_count : ℝ) -
        self.position).length > 0
      then self.velocity +
        Vec2.mulScalar (Vec2.divScalar acc.position_avg
          (acc.neighboring_prey_count : ℝ) - self.position).normalize
          (P.max_speed * 0.5)
      else self.velocity) =
    self.velocity + Vec2.mulScalar (Vec2.divScalar c L) (P.max_speed * 0.5)
  rw [hchase]
  rw [if_pos (show c.length > 0 by rw [hlen]; exact hL)]
  unfold Vec2.normalize
  rw [hlen]

theorem B1_pred_proposed (w : Vec2) :
    get_change_proposed predC 0 B1 (populate_grid B1 (P2.visible_range * 1.1))
      (P2.visible_range * 1.1) P2 w = some ⟨-1, 0⟩ := by
  unfold get_change_proposed
  rw [scan_B1_pred, scanFold_B1_pred]
  show some (applyTurn P2 predC.position
      (if predC.predator = false
       then preyRules predC P2 ⟨⟨-1.5, 0⟩, Vec2.zero, Vec2.zero, 1, []⟩
       else predatorRules predC P2 ⟨⟨-1.5, 0⟩, Vec2.zero, Vec2.zero, 1, []⟩ w)) =
    some ⟨-1, 0⟩
  rw [if_neg (show ¬ predC.predator = false by norm_num [predC])]
  have hcount : 0 < (⟨⟨-1.5, 0⟩, Vec2.zero, Vec2.zero, 1, []⟩ :
      ScanAcc).neighboring_prey_count := by norm_num
  have hch : Vec2.divScalar
      (⟨⟨-1.5, 0⟩, Vec2.zero, Vec2.zero, 1, []⟩ : ScanAcc).position_avg
      (((⟨⟨-1.5, 0⟩, Vec2.zero, Vec2.zero, 1, []⟩ :
        ScanAcc).neighboring_prey_count : ℝ)) - predC.position = ⟨-1.5, 0⟩ := by
    norm_num [predC, Vec2.divScalar]
  have hlen15 : (⟨-1.5, 0⟩ : Vec2).length = 1.5 :=
    Vec2.length_mk_eq (by norm_num) (by norm_num)
  have hpr : predatorRules predC P2
      (⟨⟨-1.5, 0⟩, Vec2.zero, Vec2.zero, 1, []⟩ : ScanAcc) w = ⟨-1, 0⟩ := by
    rw [predatorRules_eval hcount hch hlen15 (by norm_num) w]
    norm_num [predC, P2, Vec2.divScalar]
  rw [hpr]
  have hturn : applyTurn P2 predC.position (⟨-1, 0⟩ : Vec2) = ⟨-1, 0⟩ := by
    unfold applyTurn
    rw [if_neg (by norm_num [P2])]
  rw [hturn]

theorem B1_result_canon : resultAt B1 (List.range B1.length) P2 rng0 0 =
    ⟨0, predC.position + ⟨-1, 0⟩, ⟨-1, 0⟩, 1, true⟩ := by
  have hmb : (computePhase B1 (prefixBefore (List.range B1.length) 0)
      (populate_grid B1 (P2.visible_range * 1.1)) (P2.visible_range * 1.1) P2
      rng0).bs[0]? = some predC := by
    rw [mid_bs_getElem]
    rfl
  rw [resultAt_eq hmb]
  show get_change predC 0 B1 (populate_grid B1 (P2.visible_range * 1.1))
    (P2.visible_range * 1.1) P2 ⟨rng0 0, rng0 (0 + 1)⟩ =
    ⟨0, predC.position + ⟨-1, 0⟩, ⟨-1, 0⟩, 1, true⟩
  rw [get_change_of_proposed_some (B1_pred_proposed ⟨rng0 0, rng0 (0 + 1)⟩)]
  have hlen1 : (⟨-1, 0⟩ : Vec2).length = 1 :=
    Vec2.length_mk_eq (by norm_num) (by norm_num)
  have hmax : max P2.min_speed (min (1 : ℝ) P2.max_speed) = 1 := by norm_num [P2]
  have hreg : regulate P2.min_speed P2.max_speed (⟨-1, 0⟩ : Vec2) =
      ((⟨-1, 0⟩ : Vec2), (1 : ℝ)) := by
    rw [regulate_pos_def (by rw [hlen1]; norm_num), hlen1, hmax]
    unfold Vec2.scaleToLength
    rw [hlen1]
    norm_num
  rw [hreg]
  rfl

theorem B1_prey_sentinel (w : Vec2) :
    get_change preyC 1 B1 (populate_grid B1 (P2.visible_range * 1.1))
      (P2.visible_range * 1.1) P2 w = ⟨1, Vec2.zero, Vec2.zero, 0, false⟩ := by
  have hxd : |predC.position.x - preyC.position.x| < P2.visible_range * 1.1 := by
    rw [show predC.position.x - preyC.position.x = 1.5 by norm_num [predC, preyC],
      show |(1.5 : ℝ)| = 1.5 from abs_of_nonneg (by norm_num)]
    norm_num [P2]
  have hyd : |predC.position.y - preyC.position.y| < P2.visible_range * 1.1 := by
    rw [show predC.position.y - preyC.position.y = 0 by norm_num [predC, preyC],
      abs_zero]
    norm_num [P2]
  have htrig : ∃ i ∈ scanIndices (populate_grid B1 (P2.visible_range * 1.1))
      (cellOf preyC.position (P2.visible_range * 1.1)), captureTrigger preyC 1 B1 i := by
    refine ⟨0, mem_scanIndices_of_close (by norm_num [P2])
      (show B1[0]? = some predC from rfl) hxd hyd, ?_⟩
    exact ⟨by norm_num, predC, rfl, rfl, rfl, rfl,
      by norm_num [predC, preyC, Vec2.distSq, Vec2.lengthSq]⟩
  have hnone : get_change_proposed preyC 1 B1 (populate_grid B1 (P2.visible_range * 1.1))
      (P2.visible_range * 1.1) P2 w = none := by
    unfold get_change_proposed
    rw [scanFold_eq_none_of_trigger htrig initAcc]
  rw [get_change_of_proposed_none hnone]
  rfl

theorem B1_mid : computePhase B1 (prefixBefore [1, 0] 0)
    (populate_grid B1 (P2.visible_range * 1.1)) (P2.visible_range * 1.1) P2 rng0 =
    ⟨B1.set 1 { preyC with alive := false },
      [⟨1, Vec2.zero, Vec2.zero, 0, false⟩], 0⟩ := by
  have hpre : prefixBefore [1, 0] 0 = [1] := rfl
  rw [hpre, computePhase_def, List.foldl_cons, List.foldl_nil]
  rw [phaseStep_of_alive (show ((⟨B1, [], 0⟩ : PhaseState).bs)[1]? = some preyC from rfl)
    rfl (populate_grid B1 (P2.visible_range * 1.1)) (P2.visible_range * 1.1) P2 rng0]
  show (⟨if (get_change preyC 1 B1 (populate_grid B1 (P2.visible_range * 1.1))
        (P2.visible_range * 1.1) P2 ⟨rng0 0, rng0 (0 + 1)⟩).alive = false
      then B1.set 1 { preyC with alive := false } else B1,
      [get_change preyC 1 B1 (populate_grid B1 (P2.visible_range * 1.1))
        (P2.visible_range * 1.1) P2 ⟨rng0 0, rng0 (0 + 1)⟩],
      if wanderTaken preyC 1 B1 (populate_grid B1 (P2.visible_range * 1.1))
        (P2.visible_range * 1.1) P2 then 0 + 2 else 0⟩ : PhaseState) = _
  rw [B1_prey_sentinel ⟨rng0 0, rng0 (0 + 1)⟩]
  have hwt : wanderTaken preyC 1 B1 (populate_grid B1 (P2.visible_range * 1.1))
      (P2.visible_range * 1.1) P2 = false := rfl
  rw [hwt]
  simp

theorem scanFold_B1d : scanFold predC 0 P2.visible_range P2.protected_range B1d
    [1, 0] initAcc = some initAcc := by
  have hg : B1d[1]? = some preyCd := rfl
  have h1 : scanStep predC 0 P2.visible_range P2.protected_range B1d initAcc 1 =
      some initAcc := by
    unfold scanStep
    norm_num [hg, preyCd]
  have h2 : scanStep predC 0 P2.visible_range P2.protected_range B1d initAcc 0 =
      some initAcc := by
    unfold scanStep
    rw [if_pos rfl]
  simp only [scanFold, h1, h2]

theorem B1d_pred_proposed (w : Vec2) :
    get_change_proposed predC 0 B1d (populate_grid B1 (P2.visible_range * 1.1))
      (P2.visible_range * 1.1) P2 w = some (predC.velocity + w) := by
  unfold get_change_proposed
  rw [scan_B1_pred, scanFold_B1d]
  show some (applyTurn P2 predC.position
      (if predC.predator = false then preyRules predC P2 initAcc
       else predatorRules predC P2 initAcc w)) = some (predC.velocity + w)
  rw [if_neg (show ¬ predC.predator = false by norm_num [predC])]
  have hpr : predatorRules predC P2 initAcc w = predC.velocity + w := by
    unfold predatorRules
    rw [if_neg (show ¬ initAcc.neighboring_prey_count > 0 by norm_num [initAcc])]
  rw [hpr]
  have hturn : applyTurn P2 predC.position (predC.velocity + w) = predC.velocity + w := by
    unfold applyTurn
    rw [if_neg (by norm_num [P2])]
  rw [hturn]

theorem B1_result_perm : resultAt B1 [1, 0] P2 rng0 0 =
    ⟨0, predC.position + ⟨0.5, 0⟩, ⟨0.5, 0⟩, 0.5, true⟩ := by
  have hmb : (computePhase B1 (prefixBefore [1, 0] 0)
      (populate_grid B1 (P2.visible_range * 1.1)) (P2.visible_range * 1.1) P2
      rng0).bs[0]? = some predC := by
    rw [B1_mid]
    rfl
  rw [resultAt_eq hmb, B1_mid]
  show get_change predC 0 B1d (populate_grid B1 (P2.visible_range * 1.1))
    (P2.visible_range * 1.1) P2 ⟨rng0 0, rng0 (0 + 1)⟩ =
    ⟨0, predC.position + ⟨0.5, 0⟩, ⟨0.5, 0⟩, 0.5, true⟩
  rw [get_change_of_proposed_some (B1d_pred_proposed ⟨rng0 0, rng0 (0 + 1)⟩)]
  have hv : predC.velocity + (⟨rng0 0, rng0 (0 + 1)⟩ : Vec2) = (⟨0, 0⟩ : Vec2) := by
    norm_num [predC, rng0]
  rw [hv]
  have hreg : regulate P2.min_speed P2.max_speed ((⟨0, 0⟩ : Vec2)) =
      ((⟨P2.min_speed, 0⟩ : Vec2), P2.min_speed) :=
    regulate_zero_def (by
      intro hlt
      rw [Vec2.length_mk_eq le_rfl (by norm_num : (0 : ℝ) ^ 2 + 0 ^ 2 = 0 ^ 2)] at hlt
      exact lt_irrefl 0 hlt)
  rw [hreg]
  rfl

/-- Counterexample to claim C1 as stated: processing order [1, 0] (prey first)
kills the prey mid-phase, so the predator observes the prey's updated alive
flag, wanders instead of chasing, and commits a different velocity than under
the canonical order — the tick is NOT order-independent. -/
theorem claim_C1_counterexample :
    ([1, 0] : List ℕ).Perm (List.range B1.length) ∧
    update_boids_with_order B1 [1, 0] P2 rng0 ≠ update_boids B1 P2 rng0 := by
  constructor
  · have hr : List.range B1.length = [0, 1] := rfl
    rw [hr]
    exact List.Perm.swap 0 1 []
  · intro he
    have h0 := congrArg (fun l : List Boid => l[0]?) he
    dsimp only at h0
    rw [update_with_order_getElem B1 [1, 0] P2 rng0 B1_idx (by decide) 0 predC rfl,
      update_boids_getElem B1 P2 rng0 B1_idx 0 predC rfl] at h0
    rw [if_pos (show predC.alive = true ∧ 0 ∈ ([1, 0] : List ℕ) from ⟨rfl, by decide⟩),
      if_pos (show predC.alive = true ∧ 0 ∈ List.range B1.length from
        ⟨rfl, by decide⟩)] at h0
    rw [B1_result_perm, B1_result_canon] at h0
    have h1 := Option.some.inj h0
    have h2 := congrArg (fun b : Boid => b.velocity.x) h1
    dsimp only at h2
    norm_num at h2

end BoidsSim
